import Mathlib

/-!
H.264 AVCC framing and RTP helpers of go2rtc (`pkg/h264/avcc.go`, `pkg/h264/rtp.go`)

A shallow embedding of the Go code.

* A Go `[]byte` is a `List Byte`; slices are modelled by value, with capacity equal to
  length.  `Byte` is `Nat`, and every place where the Go code narrows or widens an
  integer carries its explicit `% 2^w`.
* Go `int` is the 64-bit `int`; lengths and offsets are `Nat`.
* A run-time panic of the Go code (index or slice bound out of range) is the `error`
  side of `Except Fault`.  Loops are run on fuel; `Fault.fuel` is the result of a
  loop that did not finish within its fuel and is never a Go value.
* A handler call `handler(packet)` is modelled by returning the packet that is passed.
* `GetParameterSet`, `depack.Unmarshal`, `annexb.FixAnnexBInAVCC`, `payloader.Payload`
  and the sequencer are not part of the two files: their results are inputs or
  parameters of the handlers.
* Line 12 of `rtp.go`, a `panic(...)` statement at package level, stands outside every
  function body and belongs to no function; it is not part of the embedding.
-/

namespace H264

/-- One byte of a Go `[]byte`. -/
abbrev Byte := Nat

/-- The ways a run of the Go code can fail to return. -/
inductive Fault where
  /-- Go run-time panic: index out of range. -/
  | indexOutOfRange
  /-- Go run-time panic: slice bounds out of range. -/
  | sliceBoundsOutOfRange
  /-- The loop did not finish within the fuel it was given. -/
  | fuel
  deriving DecidableEq, Repr

instance instDecidableEqExcept {ε α : Type} [DecidableEq ε] [DecidableEq α] :
    DecidableEq (Except ε α)
  | .ok a, .ok b =>
    if h : a = b then isTrue (congrArg Except.ok h)
    else isFalse (fun h2 => h (Except.ok.inj h2))
  | .error a, .error b =>
    if h : a = b then isTrue (congrArg Except.error h)
    else isFalse (fun h2 => h (Except.error.inj h2))
  | .ok _, .error _ => isFalse (fun h => Except.noConfusion h)
  | .error _, .ok _ => isFalse (fun h => Except.noConfusion h)

/-! ## Go primitives -/

/-- Go `b[i:]`: panics when `i > len(b)`. -/
def sliceFrom (b : List Byte) (i : Nat) : Except Fault (List Byte) :=
  if i ≤ b.length then pure (b.drop i) else throw Fault.sliceBoundsOutOfRange

/-- Go `b[i:j]` with capacity equal to length: panics unless `i ≤ j ≤ len(b)`. -/
def slice (b : List Byte) (i j : Nat) : Except Fault (List Byte) :=
  if i ≤ j ∧ j ≤ b.length then pure ((b.take j).drop i) else throw Fault.sliceBoundsOutOfRange

/-- Go `b[i]`: panics when `i ≥ len(b)`. -/
def index (b : List Byte) (i : Nat) : Except Fault Byte :=
  match b.get? i with
  | some x => pure x
  | none => throw Fault.indexOutOfRange

/-- Go `b[i] = v`: panics when `i ≥ len(b)`. -/
def setIndex (b : List Byte) (i : Nat) (v : Byte) : Except Fault (List Byte) :=
  if i < b.length then pure (b.set i v) else throw Fault.indexOutOfRange

/-- Go `binary.BigEndian.Uint32(b)`: panics when `len(b) < 4`, else
`uint32(b[3]) | uint32(b[2])<<8 | uint32(b[1])<<16 | uint32(b[0])<<24`. -/
def Uint32 (b : List Byte) : Except Fault Nat :=
  match b with
  | b0 :: b1 :: b2 :: b3 :: _ =>
    pure ((b3 % 256) ||| ((b2 % 256) <<< 8) ||| ((b1 % 256) <<< 16) ||| ((b0 % 256) <<< 24))
  | _ => throw Fault.indexOutOfRange

/-- The four bytes Go `binary.BigEndian.PutUint32` stores for the `uint32` value `v`:
`byte(v >> 24), byte(v >> 16), byte(v >> 8), byte(v)`. -/
def uint32Bytes (v : Nat) : List Byte :=
  [(v >>> 24) % 256, (v >>> 16) % 256, (v >>> 8) % 256, v % 256]

/-- Go `binary.BigEndian.PutUint32(b[off:], v)` as an update of `b`: the slice
expression panics when `off > len(b)`, the store when fewer than 4 bytes follow. -/
def PutUint32At (b : List Byte) (off v : Nat) : Except Fault (List Byte) :=
  if b.length < off then throw Fault.sliceBoundsOutOfRange
  else if b.length - off < 4 then throw Fault.indexOutOfRange
  else pure (b.take off ++ uint32Bytes v ++ b.drop (off + 4))

/-- Go `copy(b[off:], src)` as an update of `b`, with the number of bytes copied:
the slice expression panics when `off > len(b)`; `copy` moves
`min(len(b[off:]), len(src))` bytes. -/
def copyAt (b : List Byte) (off : Nat) (src : List Byte) : Except Fault (List Byte × Nat) :=
  if b.length < off then throw Fault.sliceBoundsOutOfRange
  else
    let k := min (b.length - off) src.length
    pure (b.take off ++ src.take k ++ b.drop (off + k), k)

/-! ## Parts of package `h264` that the two files use -/

/-- Modelled from the spec: constant `NALUTypePFrame` (inter/predicted frame), NAL type 1. -/
def NALUTypePFrame : Byte := 1
/-- Modelled from the spec: constant `NALUTypeIFrame` (intra/key frame, IDR), NAL type 5. -/
def NALUTypeIFrame : Byte := 5
/-- Modelled from the spec: constant `NALUTypeSEI` (supplemental enhancement
information), NAL type 6. -/
def NALUTypeSEI : Byte := 6
/-- Modelled from the spec: constant `NALUTypeSPS` (sequence parameter set), NAL type 7. -/
def NALUTypeSPS : Byte := 7
/-- Modelled from the spec: constant `NALUTypePPS` (picture parameter set), NAL type 8. -/
def NALUTypePPS : Byte := 8
/-- Modelled from the spec: constant `NALUTypeAUD` (access unit delimiter), NAL type 9,
the type of the `09 F0` delimiter NAL. -/
def NALUTypeAUD : Byte := 9

/-- Modelled from the spec: function `NALUType`, the type of the leading NAL of a
length-prefixed buffer: the low 5 bits of the first byte after the 4-byte length,
`b[4] & 0x1F`. -/
def NALUType (b : List Byte) : Except Fault Byte := do
  let x ← index b 4
  pure (x &&& 0x1F)

/-- Modelled from the spec: function `Join`, which puts the joined parameter sets
ahead of the payload in a fresh buffer. -/
def Join (ps iframe : List Byte) : List Byte := ps ++ iframe

/-! ## `avcc.go` -/

/-- First loop of `JoinNALU`: the size of the result. -/
def JoinNALU.size : List (List Byte) → Nat → Nat
  | [], n => n
  | nalu :: rest, n =>
    if 0 < nalu.length then JoinNALU.size rest (n + (4 + nalu.length))
    else JoinNALU.size rest n

/-- Second loop of `JoinNALU`: store each non-empty unit at offset `n` of `avcc`. -/
def JoinNALU.fill : List (List Byte) → List Byte → Nat → Except Fault (List Byte)
  | [], avcc, _ => pure avcc
  | nal :: rest, avcc, n =>
    if 0 < nal.length then do
      let avcc ← PutUint32At avcc n (nal.length % 2 ^ 32)
      let (avcc, c) ← copyAt avcc (n + 4) nal
      JoinNALU.fill rest avcc (n + (4 + c))
    else JoinNALU.fill rest avcc n

/-- `JoinNALU(nalus ...[]byte)`. -/
def JoinNALU (nalus : List (List Byte)) : Except Fault (List Byte) :=
  JoinNALU.fill nalus (List.replicate (JoinNALU.size nalus 0) 0) 0

/-- Loop of `SplitNALU`. -/
def SplitNALU.loop : Nat → List Byte → List (List Byte) → Except Fault (List (List Byte))
  | 0, _, _ => throw Fault.fuel
  | fuel + 1, avcc, nals => do
    let size := (← Uint32 avcc) + 4
    if size < avcc.length then
      SplitNALU.loop fuel (avcc.drop size) (nals ++ [avcc.take size])
    else
      pure (nals ++ [avcc])

/-- `SplitNALU(avcc)`; every turn of the loop but the last shortens `avcc`. -/
def SplitNALU (avcc : List Byte) : Except Fault (List (List Byte)) :=
  SplitNALU.loop (avcc.length + 1) avcc []

/-- Loop of `NALUTypes`. -/
def NALUTypes.loop : Nat → List Byte → List Byte → Except Fault (List Byte)
  | 0, _, _ => throw Fault.fuel
  | fuel + 1, avcc, types => do
    let types := types ++ [← NALUType avcc]
    let size := 4 + (← Uint32 avcc)
    if size < avcc.length then
      NALUTypes.loop fuel (avcc.drop size) types
    else
      pure types

/-- `NALUTypes(avcc)`. -/
def NALUTypes (avcc : List Byte) : Except Fault (List Byte) :=
  NALUTypes.loop (avcc.length + 1) avcc []

/-- An RTP packet (`rtp.Packet`): the header fields the code reads or copies, and the
payload. -/
structure Packet where
  Version : Nat
  Marker : Bool
  PayloadType : Nat
  SequenceNumber : Nat
  Timestamp : Nat
  SSRC : Nat
  Payload : List Byte
  deriving DecidableEq, Repr

/-- The prebuilt length-prefixed access unit delimiter of `RepairAVCC`. -/
def aud : List Byte := [0x00, 0x00, 0x00, 0x02, 0x09, 0xF0]

/-- The handler `RepairAVCC` returns; `ps` is `JoinNALU(sps, pps)`.  The result is the
packet passed to the downstream handler. -/
def RepairAVCC.handler (ps : List Byte) (packet : Packet) : Except Fault Packet := do
  let t ← NALUType packet.Payload
  let payload ←
    if t = NALUTypeSEI then do
      let size := (← Uint32 packet.Payload) + 4
      sliceFrom packet.Payload size
    else pure packet.Payload
  let naluType ← NALUType payload
  let payload :=
    if naluType = NALUTypeIFrame ∨ naluType = NALUTypePFrame then aud ++ payload else payload
  let payload := if naluType = NALUTypeIFrame then Join ps payload else payload
  pure { packet with Payload := payload }

/-- `RepairAVCC(codec, handler)` applied to one packet; `sps` and `pps` are what
`GetParameterSet(codec.FmtpLine)` returned. -/
def RepairAVCC (sps pps : List Byte) (packet : Packet) : Except Fault Packet := do
  let ps ← JoinNALU [sps, pps]
  RepairAVCC.handler ps packet

/-- The digits of Go `hex.EncodeToString`. -/
def hextable : List Char := "0123456789abcdef".toList

/-- Go `hex.EncodeToString`: two lowercase digits per byte. -/
def hexEncodeToString (b : List Byte) : String :=
  String.mk (b.flatMap fun x => [hextable.getD ((x % 256) / 16) '0', hextable.getD (x % 16) '0'])

/-- The alphabet of Go `base64.StdEncoding`. -/
def encodeStd : List Char :=
  "ABCDEFGHIJKLMNOPQRSTUVWXYZabcdefghijklmnopqrstuvwxyz0123456789+/".toList

/-- One base64 digit. -/
def base64Digit (v : Nat) : Char := encodeStd.getD (v % 64) 'A'

/-- Go `base64.StdEncoding.EncodeToString` on the characters of the result: three bytes
give four digits, a last group of one or two bytes is padded with `=`. -/
def base64Chars : List Byte → List Char
  | a :: b :: c :: rest =>
    let v := (a % 256) * 65536 + (b % 256) * 256 + c % 256
    base64Digit (v / 262144) :: base64Digit (v / 4096) :: base64Digit (v / 64) ::
      base64Digit v :: base64Chars rest
  | [a, b] =>
    let v := (a % 256) * 65536 + (b % 256) * 256
    [base64Digit (v / 262144), base64Digit (v / 4096), base64Digit (v / 64), '=']
  | [a] =>
    let v := (a % 256) * 65536
    [base64Digit (v / 262144), base64Digit (v / 4096), '=', '=']
  | [] => []

/-- Go `base64.StdEncoding.EncodeToString`. -/
def base64StdEncodeToString (b : List Byte) : String := String.mk (base64Chars b)

/-- Modelled from the spec: constant `core.CodecH264`, the codec name `H264`. -/
def CodecH264 : String := "H264"

/-- Modelled from the spec: the payload type of a codec description, either a
registered number or the sentinel `core.PayloadTypeRAW` ("use the embedded codec
description rather than a registered payload type"). -/
inductive PayloadType where
  | registered (pt : Nat)
  | RAW
  deriving DecidableEq, Repr

/-- The fields of `core.Codec` that `AVCCToCodec` fills. -/
structure Codec where
  Name : String
  ClockRate : Nat
  FmtpLine : String
  PayloadType : PayloadType
  deriving DecidableEq, Repr

/-- Loop of `AVCCToCodec`; `buf` is the string built so far.  The store `avcc[7] = 0x29`
goes to the buffer the later slices read. -/
def AVCCToCodec.loop : Nat → List Byte → String → Except Fault String
  | 0, _, _ => throw Fault.fuel
  | fuel + 1, avcc, buf =>
    let n := avcc.length
    if n < 4 then pure buf
    else do
      let size := 4 + (← Uint32 avcc)
      if n < size then pure buf
      else do
        let t ← NALUType avcc
        if t = NALUTypeSPS then do
          let avcc ← if size ≥ 8 then setIndex avcc 7 0x29 else pure avcc
          let buf := buf ++ ";profile-level-id="
          let buf := buf ++ hexEncodeToString (← slice avcc 5 8)
          let buf := buf ++ ";sprop-parameter-sets="
          let buf := buf ++ base64StdEncodeToString (← slice avcc 4 size)
          AVCCToCodec.loop fuel (← sliceFrom avcc size) buf
        else if t = NALUTypePPS then do
          let buf := buf ++ ","
          let buf := buf ++ base64StdEncodeToString (← slice avcc 4 size)
          AVCCToCodec.loop fuel (← sliceFrom avcc size) buf
        else
          AVCCToCodec.loop fuel (← sliceFrom avcc size) buf

/-- `AVCCToCodec(avcc)`; every turn of the loop consumes at least 4 bytes. -/
def AVCCToCodec (avcc : List Byte) : Except Fault Codec := do
  let s ← AVCCToCodec.loop (avcc.length + 1) avcc "packetization-mode=1"
  pure { Name := CodecH264, ClockRate := 90000, FmtpLine := s, PayloadType := PayloadType.RAW }

/-! ## `rtp.go` -/

/-- `RTPPacketVersionAVC`. -/
def RTPPacketVersionAVC : Nat := 0

/-- `PSMaxSize`. -/
def PSMaxSize : Nat := 128

/-- `patchSPS(nal)`. -/
def patchSPS (nal : List Byte) : List Byte :=
  if nal.length ≥ 4 then nal.set 3 0x29 else nal

/-- What the external `depack.Unmarshal(packet.Payload)` returned for a packet: the
candidate payload and whether it reported an error. -/
structure Unmarshalled where
  payload : List Byte
  err : Bool
  deriving DecidableEq, Repr

/-- The `for` loop of `RTPDepay` that runs when the reassembly buffer is empty.
`none` is the `return` that drops the packet; `some (buf, payload)` is the `break`. -/
def RTPDepay.start (ps : List Byte) :
    Nat → List Byte → List Byte → Except Fault (Option (List Byte × List Byte))
  | 0, _, _ => throw Fault.fuel
  | fuel + 1, buf, payload => do
    let t ← NALUType payload
    if t = NALUTypeIFrame then
      pure (some (buf ++ ps, payload))
    else if t = NALUTypeSEI ∨ t = NALUTypeAUD then do
      let i := (4 + (← Uint32 payload)) % 2 ^ 32
      if i = payload.length then pure none
      else RTPDepay.start ps fuel buf (← sliceFrom payload i)
    else if t = NALUTypePFrame ∨ t = NALUTypeSPS ∨ t = NALUTypePPS then
      pure (some (buf, payload))
    else
      pure none

/-- The "SPS level patch" loop of `RTPDepay`, from `offset` on. -/
def RTPDepay.patch : Nat → List Byte → Nat → Except Fault (List Byte)
  | 0, _, _ => throw Fault.fuel
  | fuel + 1, payload, offset =>
    if offset + 4 ≤ payload.length then do
      let size ← Uint32 (← sliceFrom payload offset)
      let offset := offset + 4
      if offset + size > payload.length then pure payload
      else do
        let nal ← slice payload offset (offset + size)
        let payload ←
          if nal.length ≥ 4 then do
            if (← index nal 0) &&& 0x1F = NALUTypeSPS then setIndex payload (offset + 3) 0x29
            else pure payload
          else pure payload
        RTPDepay.patch fuel payload (offset + size)
    else pure payload

/-- The part of the `RTPDepay` handler from "collect all NALs for Access Unit" on.
`fix` is the external `annexb.FixAnnexBInAVCC`. -/
def RTPDepay.finish (fix : List Byte → List Byte) (buf payload : List Byte) (packet : Packet) :
    Except Fault (List Byte × Option Packet) :=
  if !packet.Marker then pure (buf ++ payload, none)
  else do
    let payload := if buf.length > 0 then buf ++ payload else payload
    let buf : List Byte := if buf.length > 0 then [] else buf
    let t ← NALUType payload
    let payload ←
      if t = NALUTypeSPS then do
        if (← Uint32 payload) ≥ PSMaxSize then pure (fix payload) else pure payload
      else pure payload
    let payload ← RTPDepay.patch (payload.length + 1) payload 0
    pure (buf, some { packet with Version := RTPPacketVersionAVC, Payload := payload })

/-- The part of the `RTPDepay` handler from `if len(buf) == 0` on. -/
def RTPDepay.assemble (fix : List Byte → List Byte) (ps buf payload : List Byte)
    (packet : Packet) : Except Fault (List Byte × Option Packet) :=
  if buf.length = 0 then do
    match ← RTPDepay.start ps (payload.length + 1) buf payload with
    | none => pure (buf, none)
    | some (buf, payload) => RTPDepay.finish fix buf payload packet
  else RTPDepay.finish fix buf payload packet

/-- The handler `RTPDepay` returns, for one packet: from the reassembly buffer `buf` to
the next buffer and the packet passed to the downstream handler, if any.  `ps` is the
joined parameter sets, `u` the result of the external depacketizer on the packet. -/
def RTPDepay.handler (fix : List Byte → List Byte) (ps buf : List Byte) (packet : Packet)
    (u : Unmarshalled) : Except Fault (List Byte × Option Packet) :=
  if u.payload.length = 0 ∨ u.err then pure (buf, none)
  else
    let buf : List Byte := if buf.length > 5 * 1024 * 1024 then [] else buf
    if packet.Marker ∧ u.payload.length < PSMaxSize then do
      let t ← NALUType u.payload
      if t = NALUTypeSPS ∨ t = NALUTypePPS then pure (buf ++ u.payload, none)
      else if t = NALUTypeSEI then pure (buf, none)
      else RTPDepay.assemble fix ps buf u.payload packet
    else RTPDepay.assemble fix ps buf u.payload packet

/-- The handler on a sequence of packets: the final reassembly buffer and, per packet,
the packet passed downstream, if any. -/
def RTPDepay.run (fix : List Byte → List Byte) (ps : List Byte) :
    List Byte → List (Packet × Unmarshalled) → Except Fault (List Byte × List (Option Packet))
  | buf, [] => pure (buf, [])
  | buf, (packet, u) :: rest => do
    let (buf, out) ← RTPDepay.handler fix ps buf packet u
    let (buf, outs) ← RTPDepay.run fix ps buf rest
    pure (buf, out :: outs)

/-- `RTPDepay(codec, handler)` on a sequence of packets, from the empty reassembly
buffer; `sps` and `pps` are what `GetParameterSet(codec.FmtpLine)` returned. -/
def RTPDepay (fix : List Byte → List Byte) (sps pps : List Byte)
    (packets : List (Packet × Unmarshalled)) :
    Except Fault (List Byte × List (Option Packet)) := do
  let sps := if sps.length ≥ 4 then sps.set 3 0x29 else sps
  let ps ← JoinNALU [sps, pps]
  RTPDepay.run fix ps [] packets

/-- The external sequencer's `NextSequenceNumber()` on its counter: the counter
advances by one, wrapping at 16 bits, and the new value is returned. -/
def NextSequenceNumber (seq : Nat) : Nat × Nat :=
  let n := (seq + 1) % 2 ^ 16
  (n, n)

/-- The payload limit `RTPPay` hands to the payloader: `mtu` is a `uint16`, 0 stands
for 1472, and `mtu -= 12` is `uint16` arithmetic. -/
def RTPPay.mtu (mtu : Nat) : Nat :=
  let mtu := if mtu = 0 then 1472 else mtu
  (mtu + 2 ^ 16 - 12) % 2 ^ 16

/-- The `for i, payload := range payloads` loop of the `RTPPay` handler from index `i`
on, with the sequencer counter `seq`: the packets passed to the downstream handler, in
order, and the counter afterwards.  `last` is `len(payloads) - 1`, an `int`. -/
def RTPPay.emit (timestamp : Nat) (last : Int) : Nat → Nat → List (List Byte) → List Packet × Nat
  | _, seq, [] => ([], seq)
  | i, seq, payload :: rest =>
    let (n, seq) := NextSequenceNumber seq
    let clone : Packet :=
      { Version := 2, Marker := decide ((i : Int) = last), PayloadType := 0,
        SequenceNumber := n, Timestamp := timestamp, SSRC := 0, Payload := payload }
    let (out, seq) := RTPPay.emit timestamp last (i + 1) seq rest
    (clone :: out, seq)

/-- The handler `RTPPay` returns, for one packet: the packets passed to the downstream
handler, in order, and the sequencer counter afterwards.  `payloader limit payload` is
what `payloader.Payload(limit, payload)` returns on this call (`Payloader` is not part
of the two files); `mtu` is the limit `RTPPay` computed. -/
def RTPPay.handler (payloader : Nat → List Byte → List (List Byte)) (mtu seq : Nat)
    (packet : Packet) : List Packet × Nat :=
  if packet.Version ≠ RTPPacketVersionAVC then ([packet], seq)
  else
    let payloads := payloader mtu packet.Payload
    let last : Int := (payloads.length : Int) - 1
    RTPPay.emit packet.Timestamp last 0 seq payloads

/-- `RTPPay(mtu, handler)` applied to one packet, the sequencer counter being `seq`. -/
def RTPPay (payloader : Nat → List Byte → List (List Byte)) (mtu seq : Nat)
    (packet : Packet) : List Packet × Nat :=
  RTPPay.handler payloader (RTPPay.mtu mtu) seq packet

/-! ## Specification-side definitions -/

/-- The 4-byte big-endian representation of `v`: its four base-256 digits, most
significant first. -/
def bigEndian32 (v : Nat) : List Byte :=
  [v / 256 ^ 3 % 256, v / 256 ^ 2 % 256, v / 256 % 256, v % 256]

/-- A length-prefixed record: the unit's length as a 4-byte big-endian integer, then
the unit's bytes. -/
def record (nalu : List Byte) : List Byte := bigEndian32 nalu.length ++ nalu

/-- The AVCC buffer the spec describes for `join`: the records of the non-empty units,
in order. -/
def joinSpec (nalus : List (List Byte)) : List Byte :=
  (nalus.filter (fun n => decide (n ≠ []))).flatMap record

/-- The bytes `JoinNALU` stores, whatever the lengths of the units: the length
prefix holds the length reduced to a `uint32`. -/
def joinBytes : List (List Nat) → List Nat
  | [] => []
  | nal :: rest =>
    if 0 < nal.length then uint32Bytes (nal.length % 2 ^ 32) ++ nal ++ joinBytes rest
    else joinBytes rest

/-- A well-formed AVCC buffer: the records of the units, in order (a unit may be
empty; its record is then the four zero bytes). -/
def records (nalus : List (List Byte)) : List Byte := nalus.flatMap record

/-- The level patch on one NAL unit, as the spec words it: an SPS (type 7) of length at
least 4 gets byte 3 set to `0x29`; any other unit is unchanged. -/
def patchNAL (nal : List Byte) : List Byte :=
  if 4 ≤ nal.length ∧ nal.headD 0 &&& 0x1F = NALUTypeSPS then nal.set 3 0x29 else nal

/-- The value of a 4-byte big-endian length field at the head of a buffer. -/
def bigEndianValue : List Byte → Nat
  | b0 :: b1 :: b2 :: b3 :: _ =>
    b0 % 256 * 256 ^ 3 + b1 % 256 * 256 ^ 2 + b2 % 256 * 256 + b3 % 256
  | _ => 0

/-- The level patch on a buffer, as the spec words it ("walk every NAL record in the
assembled unit; for any SPS record of length at least 4, overwrite its profile-level
byte"): every complete record keeps its 4-byte length field and has `patchNAL` applied
to its NAL; the walk ends where fewer than 4 bytes are left, or where a record declares
more bytes than are left, and what is left there is unchanged.  The fuel bounds the
number of records. -/
def levelPatch.walk : Nat → List Byte → List Byte
  | 0, b => b
  | fuel + 1, b =>
    if b.length < 4 then b
    else if b.length < 4 + bigEndianValue b then b
    else
      b.take 4 ++ patchNAL ((b.drop 4).take (bigEndianValue b))
        ++ levelPatch.walk fuel (b.drop (4 + bigEndianValue b))

/-- The level patch on a buffer; a record is at least 4 bytes, so the length of the
buffer is fuel enough. -/
def levelPatch (b : List Byte) : List Byte := levelPatch.walk b.length b

/-! ## Lemmas on the primitives -/

theorem Uint32_cons (b0 b1 b2 b3 : Nat) (rest : List Nat) :
    Uint32 (b0 :: b1 :: b2 :: b3 :: rest)
      = .ok (b0 % 256 * 2 ^ 24 + b1 % 256 * 2 ^ 16 + b2 % 256 * 2 ^ 8 + b3 % 256) := by
  show Except.ok (b3 % 256 ||| (b2 % 256) <<< 8 ||| (b1 % 256) <<< 16 ||| (b0 % 256) <<< 24) = _
  have h0 : b0 % 256 < 256 := Nat.mod_lt _ (by decide)
  have h1 : b1 % 256 < 256 := Nat.mod_lt _ (by decide)
  have h2 : b2 % 256 < 256 := Nat.mod_lt _ (by decide)
  have h3 : b3 % 256 < 256 := Nat.mod_lt _ (by decide)
  generalize b0 % 256 = x0 at *
  generalize b1 % 256 = x1 at *
  generalize b2 % 256 = x2 at *
  generalize b3 % 256 = x3 at *
  have e1 : x3 ||| x2 <<< 8 = 2 ^ 8 * x2 + x3 := by
    rw [Nat.or_comm, Nat.shiftLeft_eq, Nat.mul_comm]
    exact (Nat.mul_add_lt_is_or (by omega) x2).symm
  have e2 : (2 ^ 8 * x2 + x3) ||| x1 <<< 16 = 2 ^ 16 * x1 + (2 ^ 8 * x2 + x3) := by
    rw [Nat.or_comm, Nat.shiftLeft_eq, Nat.mul_comm]
    exact (Nat.mul_add_lt_is_or (by omega) x1).symm
  have e3 : (2 ^ 16 * x1 + (2 ^ 8 * x2 + x3)) ||| x0 <<< 24
      = 2 ^ 24 * x0 + (2 ^ 16 * x1 + (2 ^ 8 * x2 + x3)) := by
    rw [Nat.or_comm, Nat.shiftLeft_eq, Nat.mul_comm]
    exact (Nat.mul_add_lt_is_or (by omega) x0).symm
  rw [e1, e2, e3]
  congr 1
  omega

theorem uint32Bytes_eq (v : Nat) : uint32Bytes v = bigEndian32 v := by
  simp only [uint32Bytes, bigEndian32, Nat.shiftRight_eq_div_pow]
  have a : v / 2 ^ 24 = v / 256 ^ 3 := by norm_num
  have b : v / 2 ^ 16 = v / 256 ^ 2 := by norm_num
  have c : v / 2 ^ 8 = v / 256 := by norm_num
  rw [a, b, c]

theorem bigEndian32_length (v : Nat) : (bigEndian32 v).length = 4 := rfl

theorem Uint32_bigEndian32 (v : Nat) (rest : List Nat) :
    Uint32 (bigEndian32 v ++ rest) = .ok (v % 2 ^ 32) := by
  show Uint32 (_ :: _ :: _ :: _ :: rest) = _
  rw [Uint32_cons]
  congr 1
  omega

theorem record_length (nalu : List Byte) : (record nalu).length = 4 + nalu.length := by
  simp [record, bigEndian32_length]

theorem Uint32_record (nalu rest : List Byte) (h : nalu.length < 2 ^ 32) :
    Uint32 (record nalu ++ rest) = .ok nalu.length := by
  rw [record, List.append_assoc, Uint32_bigEndian32, Nat.mod_eq_of_lt h]

theorem NALUType_record (x : Byte) (nalu rest : List Byte) :
    NALUType (record (x :: nalu) ++ rest) = .ok (x &&& 0x1F) := rfl

theorem PutUint32At_spec (done : List Nat) (k v : Nat) :
    PutUint32At (done ++ List.replicate (4 + k) 0) done.length v
      = .ok (done ++ uint32Bytes v ++ List.replicate k 0) := by
  unfold PutUint32At
  have h1 : ¬ (done ++ List.replicate (4 + k) 0).length < done.length := by simp
  have h2 : ¬ (done ++ List.replicate (4 + k) 0).length - done.length < 4 := by simp
  rw [if_neg h1, if_neg h2]
  have h3 : List.take done.length (done ++ List.replicate (4 + k) 0) = done := by simp
  have h4 : List.drop (done.length + 4) (done ++ List.replicate (4 + k) 0)
      = List.replicate k 0 := by
    rw [List.drop_append]
    simp
  rw [h3, h4]
  rfl

theorem copyAt_spec (done src : List Nat) (k : Nat) :
    copyAt (done ++ List.replicate (src.length + k) 0) done.length src
      = .ok (done ++ src ++ List.replicate k 0, src.length) := by
  unfold copyAt
  have h1 : ¬ (done ++ List.replicate (src.length + k) 0).length < done.length := by simp
  rw [if_neg h1]
  have h2 : min ((done ++ List.replicate (src.length + k) 0).length - done.length) src.length
      = src.length := by simp
  have h3 : List.take done.length (done ++ List.replicate (src.length + k) 0) = done := by simp
  have h4 : List.drop (done.length + src.length) (done ++ List.replicate (src.length + k) 0)
      = List.replicate k 0 := by
    rw [List.drop_append]
    simp
  simp only [h2, h3, h4, List.take_length]
  rfl

theorem joinSpec_nil : joinSpec [] = [] := rfl

theorem joinSpec_cons_empty (rest : List (List Nat)) : joinSpec ([] :: rest) = joinSpec rest := by
  simp [joinSpec]

theorem joinSpec_cons (nal : List Nat) (rest : List (List Nat)) (h : 0 < nal.length) :
    joinSpec (nal :: rest) = record nal ++ joinSpec rest := by
  have h2 : nal ≠ [] := by
    intro e
    simp [e] at h
  simp [joinSpec, h2]

theorem uint32Bytes_length (v : Nat) : (uint32Bytes v).length = 4 := rfl

theorem JoinNALU.size_eq (nalus : List (List Nat)) :
    ∀ n, JoinNALU.size nalus n = n + (joinBytes nalus).length := by
  induction nalus with
  | nil => intro n; simp [JoinNALU.size, joinBytes]
  | cons nal rest ih =>
    intro n
    by_cases h : 0 < nal.length
    · rw [JoinNALU.size, if_pos h, ih, joinBytes, if_pos h]
      simp only [List.length_append, uint32Bytes_length]
      omega
    · rw [JoinNALU.size, if_neg h, ih, joinBytes, if_neg h]

theorem JoinNALU.fill_eq (nalus : List (List Nat)) :
    ∀ done : List Nat,
      JoinNALU.fill nalus (done ++ List.replicate (joinBytes nalus).length 0) done.length
        = .ok (done ++ joinBytes nalus) := by
  induction nalus with
  | nil => intro done; simp [JoinNALU.fill, joinBytes]; rfl
  | cons nal rest ih =>
    intro done
    by_cases h : 0 < nal.length
    · rw [JoinNALU.fill, if_pos h, joinBytes, if_pos h]
      simp only [List.length_append, uint32Bytes_length]
      rw [Nat.add_assoc, PutUint32At_spec]
      have e1 : (done ++ uint32Bytes (nal.length % 2 ^ 32)).length = done.length + 4 := by
        simp [uint32Bytes_length]
      have c := copyAt_spec (done ++ uint32Bytes (nal.length % 2 ^ 32)) nal
        (joinBytes rest).length
      rw [e1] at c
      simp only [bind, Except.bind, c]
      have e2 : (done ++ uint32Bytes (nal.length % 2 ^ 32) ++ nal).length
          = done.length + (4 + nal.length) := by
        simp [uint32Bytes_length, Nat.add_assoc]
      have i := ih (done ++ uint32Bytes (nal.length % 2 ^ 32) ++ nal)
      rw [e2] at i
      rw [i]
      simp
    · rw [JoinNALU.fill, if_neg h, joinBytes, if_neg h]
      exact ih done

/-- `JoinNALU` never faults. -/
theorem JoinNALU_ok (nalus : List (List Nat)) : JoinNALU nalus = .ok (joinBytes nalus) := by
  have h := JoinNALU.fill_eq nalus []
  simp only [List.nil_append, List.length_nil] at h
  rw [JoinNALU, JoinNALU.size_eq, Nat.zero_add]
  exact h

theorem joinBytes_eq_joinSpec (nalus : List (List Nat))
    (hlt : ∀ n ∈ nalus, n.length < 2 ^ 32) : joinBytes nalus = joinSpec nalus := by
  induction nalus with
  | nil => rfl
  | cons nal rest ih =>
    have hrest : ∀ n ∈ rest, n.length < 2 ^ 32 := fun n hn => hlt n (List.mem_cons_of_mem _ hn)
    have hnal : nal.length < 2 ^ 32 := hlt nal (List.mem_cons_self _ _)
    by_cases h : 0 < nal.length
    · rw [joinBytes, if_pos h, joinSpec_cons nal rest h, ih hrest, Nat.mod_eq_of_lt hnal,
        uint32Bytes_eq, record]
    · have e : nal = [] := by
        cases nal with
        | nil => rfl
        | cons a l => simp at h
      rw [joinBytes, if_neg h, e, joinSpec_cons_empty, ih hrest]

theorem JoinNALU_eq (nalus : List (List Nat)) (hlt : ∀ n ∈ nalus, n.length < 2 ^ 32) :
    JoinNALU nalus = .ok (joinSpec nalus) := by
  rw [JoinNALU_ok, joinBytes_eq_joinSpec nalus hlt]

theorem joinSpec_length_ge (nalus : List (List Nat)) (h : ∀ n ∈ nalus, n ≠ []) :
    nalus.length ≤ (joinSpec nalus).length := by
  induction nalus with
  | nil => simp
  | cons nal rest ih =>
    have hrest : ∀ n ∈ rest, n ≠ [] := fun n hn => h n (List.mem_cons_of_mem _ hn)
    have hnal : 0 < nal.length := List.length_pos.mpr (h nal (List.mem_cons_self _ _))
    have i := ih hrest
    rw [joinSpec_cons nal rest hnal, List.length_append, record_length, List.length_cons]
    omega

theorem take_record (nal rest : List Nat) :
    List.take (nal.length + 4) (record nal ++ rest) = record nal := by
  have e : nal.length + 4 = (record nal).length := by rw [record_length]; omega
  rw [e, List.take_left']
  rfl

theorem drop_record (nal rest : List Nat) :
    List.drop (nal.length + 4) (record nal ++ rest) = rest := by
  have e : nal.length + 4 = (record nal).length := by rw [record_length]; omega
  rw [e, List.drop_left']
  rfl

theorem SplitNALU.loop_records (nalus : List (List Nat)) (hne : nalus ≠ [])
    (h : ∀ n ∈ nalus, n ≠ [] ∧ n.length < 2 ^ 32) :
    ∀ fuel acc, nalus.length ≤ fuel →
      SplitNALU.loop fuel (joinSpec nalus) acc = .ok (acc ++ nalus.map record) := by
  induction nalus with
  | nil => exact absurd rfl hne
  | cons nal rest ih =>
    intro fuel acc hf
    have hnal := h nal (List.mem_cons_self _ _)
    have hpos : 0 < nal.length := List.length_pos.mpr hnal.1
    have hrest : ∀ n ∈ rest, n ≠ [] ∧ n.length < 2 ^ 32 :=
      fun n hn => h n (List.mem_cons_of_mem _ hn)
    cases fuel with
    | zero => simp at hf
    | succ f =>
      rw [joinSpec_cons nal rest hpos, SplitNALU.loop]
      simp only [Uint32_record nal _ hnal.2, bind, Except.bind, List.length_append,
        record_length]
      by_cases hr : rest = []
      · subst hr
        have hn : ¬ (nal.length + 4 < 4 + nal.length + (joinSpec []).length) := by
          rw [joinSpec_nil, List.length_nil]
          omega
        rw [if_neg hn, joinSpec_nil, List.append_nil]
        rfl
      · have hlen := joinSpec_length_ge rest (fun n hn => (hrest n hn).1)
        have hrl : 0 < rest.length := List.length_pos.mpr hr
        have hlt : nal.length + 4 < 4 + nal.length + (joinSpec rest).length := by omega
        rw [if_pos hlt, take_record, drop_record,
          ih hr hrest f (acc ++ [record nal]) (by simpa using hf)]
        simp

theorem NALUTypes.loop_types (nalus : List (List Nat)) (hne : nalus ≠ [])
    (h : ∀ n ∈ nalus, n ≠ [] ∧ n.length < 2 ^ 32) :
    ∀ fuel acc, nalus.length ≤ fuel →
      NALUTypes.loop fuel (joinSpec nalus) acc
        = .ok (acc ++ nalus.map (fun n => n.headD 0 &&& 0x1F)) := by
  induction nalus with
  | nil => exact absurd rfl hne
  | cons nal rest ih =>
    intro fuel acc hf
    have hnal := h nal (List.mem_cons_self _ _)
    have hpos : 0 < nal.length := List.length_pos.mpr hnal.1
    have hrest : ∀ n ∈ rest, n ≠ [] ∧ n.length < 2 ^ 32 :=
      fun n hn => h n (List.mem_cons_of_mem _ hn)
    cases fuel with
    | zero => simp at hf
    | succ f =>
      rw [joinSpec_cons nal rest hpos, NALUTypes.loop]
      have ht : NALUType (record nal ++ joinSpec rest) = .ok (nal.headD 0 &&& 0x1F) := by
        cases nal with
        | nil => simp at hpos
        | cons x l => rfl
      simp only [ht, Uint32_record nal _ hnal.2, bind, Except.bind, List.length_append,
        record_length]
      by_cases hr : rest = []
      · subst hr
        have hn : ¬ (4 + nal.length < 4 + nal.length + (joinSpec []).length) := by
          rw [joinSpec_nil, List.length_nil]
          omega
        rw [if_neg hn]
        rfl
      · have hlen := joinSpec_length_ge rest (fun n hn => (hrest n hn).1)
        have hrl : 0 < rest.length := List.length_pos.mpr hr
        have hlt : 4 + nal.length < 4 + nal.length + (joinSpec rest).length := by omega
        have e4 : 4 + nal.length = nal.length + 4 := by omega
        rw [if_pos hlt, e4, drop_record,
          ih hr hrest f (acc ++ [nal.headD 0 &&& 0x1F]) (by simpa using hf)]
        simp

theorem joinSpec_length (nalus : List (List Nat)) :
    (joinSpec nalus).length
      = ((nalus.filter (fun n => decide (n ≠ []))).map (fun n => 4 + n.length)).sum := by
  induction nalus with
  | nil => rfl
  | cons nal rest ih =>
    by_cases h : 0 < nal.length
    · have h2 : nal ≠ [] := List.length_pos.mp h
      rw [joinSpec_cons nal rest h, List.length_append, record_length, ih]
      simp [h2]
    · have e : nal = [] := by
        cases nal with
        | nil => rfl
        | cons a l => simp at h
      rw [e, joinSpec_cons_empty, ih]
      simp

theorem joinSpec_filter (nalus : List (List Nat)) :
    joinSpec (nalus.filter (fun n => decide (n ≠ []))) = joinSpec nalus := by
  simp [joinSpec, List.filter_filter]

theorem map_drop_record (nalus : List (List Nat)) :
    (nalus.map record).map (List.drop 4) = nalus := by
  induction nalus with
  | nil => rfl
  | cons nal rest ih =>
    rw [List.map_cons, List.map_cons, ih]
    rfl

theorem sliceFrom_record (nal rest : List Nat) :
    sliceFrom (record nal ++ rest) (nal.length + 4) = .ok rest := by
  have h : nal.length + 4 ≤ (record nal ++ rest).length := by
    rw [List.length_append, record_length]
    omega
  rw [sliceFrom, if_pos h, drop_record]
  rfl

theorem RepairAVCC.handler_iframe (ps : List Nat) (packet : Packet)
    (h : NALUType packet.Payload = .ok NALUTypeIFrame) :
    RepairAVCC.handler ps packet
      = .ok { packet with Payload := ps ++ aud ++ packet.Payload } := by
  simp [RepairAVCC.handler, h, bind, Except.bind, pure, Except.pure, NALUTypeIFrame,
    NALUTypeSEI, NALUTypePFrame, Join]

theorem RepairAVCC.handler_pframe (ps : List Nat) (packet : Packet)
    (h : NALUType packet.Payload = .ok NALUTypePFrame) :
    RepairAVCC.handler ps packet = .ok { packet with Payload := aud ++ packet.Payload } := by
  simp [RepairAVCC.handler, h, bind, Except.bind, pure, Except.pure, NALUTypeIFrame,
    NALUTypeSEI, NALUTypePFrame, Join]

theorem RepairAVCC.handler_sei_pframe (ps : List Nat) (packet : Packet) (sei rest : List Nat)
    (hp : packet.Payload = record sei ++ rest) (hlen : sei.length < 2 ^ 32)
    (hs : NALUType packet.Payload = .ok NALUTypeSEI)
    (h : NALUType rest = .ok NALUTypePFrame) :
    RepairAVCC.handler ps packet = .ok { packet with Payload := aud ++ rest } := by
  have hu : Uint32 packet.Payload = .ok sei.length := by rw [hp, Uint32_record sei rest hlen]
  have hd : sliceFrom packet.Payload (sei.length + 4) = .ok rest := by
    rw [hp, sliceFrom_record]
  simp [RepairAVCC.handler, hs, hu, hd, h, bind, Except.bind, pure, Except.pure,
    NALUTypeIFrame, NALUTypeSEI, NALUTypePFrame, Join]

theorem slice_record (nal rest : List Nat) :
    slice (record nal ++ rest) 4 (4 + nal.length) = .ok nal := by
  have h : 4 ≤ 4 + nal.length ∧ 4 + nal.length ≤ (record nal ++ rest).length := by
    rw [List.length_append, record_length]
    omega
  have e : 4 + nal.length = nal.length + 4 := by omega
  rw [slice, if_pos h, e, take_record]
  rfl

theorem sliceFrom_record_add (nal rest : List Nat) :
    sliceFrom (record nal ++ rest) (4 + nal.length) = .ok rest := by
  rw [Nat.add_comm, sliceFrom_record]

theorem AVCCToCodec.loop_sps (fuel : Nat) (s0 s1 s2 s3 : Nat) (tail rest : List Nat)
    (buf : String) (hlen : (s0 :: s1 :: s2 :: s3 :: tail).length < 2 ^ 32)
    (ht : s0 &&& 0x1F = NALUTypeSPS) :
    AVCCToCodec.loop (fuel + 1) (record (s0 :: s1 :: s2 :: s3 :: tail) ++ rest) buf
      = AVCCToCodec.loop fuel rest
          (buf ++ ";profile-level-id=" ++ hexEncodeToString [s1, s2, 0x29]
            ++ ";sprop-parameter-sets="
            ++ base64StdEncodeToString (s0 :: s1 :: s2 :: 0x29 :: tail)) := by
  have h1 : ¬ (record (s0 :: s1 :: s2 :: s3 :: tail) ++ rest).length < 4 := by
    rw [List.length_append, record_length]
    omega
  have h2 : ¬ (record (s0 :: s1 :: s2 :: s3 :: tail) ++ rest).length
      < 4 + (s0 :: s1 :: s2 :: s3 :: tail).length := by
    rw [List.length_append, record_length]
    omega
  have h3 : 4 + (s0 :: s1 :: s2 :: s3 :: tail).length ≥ 8 := by
    simp only [List.length_cons]
    omega
  have hty : NALUType (record (s0 :: s1 :: s2 :: s3 :: tail) ++ rest) = .ok NALUTypeSPS := by
    rw [NALUType_record, ht]
  have hset : setIndex (record (s0 :: s1 :: s2 :: s3 :: tail) ++ rest) 7 0x29
      = .ok (record (s0 :: s1 :: s2 :: 0x29 :: tail) ++ rest) := by
    have hl : 7 < (record (s0 :: s1 :: s2 :: s3 :: tail) ++ rest).length := by
      rw [List.length_append, record_length]
      simp only [List.length_cons]
      omega
    rw [setIndex, if_pos hl]
    rfl
  have hhex : slice (record (s0 :: s1 :: s2 :: 0x29 :: tail) ++ rest) 5 8
      = .ok [s1, s2, 0x29] := by
    have hl : 5 ≤ 8 ∧ 8 ≤ (record (s0 :: s1 :: s2 :: 0x29 :: tail) ++ rest).length := by
      rw [List.length_append, record_length]
      simp only [List.length_cons]
      omega
    rw [slice, if_pos hl]
    rfl
  have hb := slice_record (s0 :: s1 :: s2 :: 0x29 :: tail) rest
  have hd := sliceFrom_record_add (s0 :: s1 :: s2 :: 0x29 :: tail) rest
  have el : (s0 :: s1 :: s2 :: 0x29 :: tail).length = (s0 :: s1 :: s2 :: s3 :: tail).length :=
    rfl
  rw [el] at hb hd
  rw [AVCCToCodec.loop]
  simp only [if_neg h1, Uint32_record _ rest hlen, bind, Except.bind, if_neg h2, hty,
    if_pos h3, hset, hhex, hb, hd, if_true]

theorem AVCCToCodec.loop_pps (fuel : Nat) (p0 : Nat) (tail rest : List Nat)
    (buf : String) (hlen : (p0 :: tail).length < 2 ^ 32)
    (ht : p0 &&& 0x1F = NALUTypePPS) :
    AVCCToCodec.loop (fuel + 1) (record (p0 :: tail) ++ rest) buf
      = AVCCToCodec.loop fuel rest (buf ++ "," ++ base64StdEncodeToString (p0 :: tail)) := by
  have h1 : ¬ (record (p0 :: tail) ++ rest).length < 4 := by
    rw [List.length_append, record_length]
    omega
  have h2 : ¬ (record (p0 :: tail) ++ rest).length < 4 + (p0 :: tail).length := by
    rw [List.length_append, record_length]
    omega
  have hty : NALUType (record (p0 :: tail) ++ rest) = .ok NALUTypePPS := by
    rw [NALUType_record, ht]
  have hne : ¬ (NALUTypePPS = NALUTypeSPS) := by decide
  rw [AVCCToCodec.loop]
  simp only [if_neg h1, Uint32_record _ rest hlen, bind, Except.bind, if_neg h2, hty,
    if_neg hne, slice_record, sliceFrom_record_add, if_true]

theorem AVCCToCodec.loop_nil (fuel : Nat) (buf : String) :
    AVCCToCodec.loop (fuel + 1) [] buf = .ok buf := rfl

theorem joinSpec_pair (a b : List Nat) (ha : 0 < a.length) (hb : 0 < b.length) :
    joinSpec [a, b] = record a ++ (record b ++ []) := by
  rw [joinSpec_cons a _ ha, joinSpec_cons b _ hb, joinSpec_nil]

theorem Uint32_total (b : List Nat) (h : 4 ≤ b.length) : ∃ n, Uint32 b = .ok n := by
  match b, h with
  | b0 :: b1 :: b2 :: b3 :: rest, _ => exact ⟨_, Uint32_cons b0 b1 b2 b3 rest⟩

theorem NALUType_ok_length (p : List Nat) (t : Nat) (h : NALUType p = .ok t) :
    5 ≤ p.length := by
  match p, h with
  | _ :: _ :: _ :: _ :: _ :: _, _ => simp

theorem NALUType_append (p rest : List Nat) (t : Nat) (h : NALUType p = .ok t) :
    NALUType (p ++ rest) = .ok t := by
  match p, h with
  | _ :: _ :: _ :: _ :: _ :: _, h => exact h

theorem Uint32_append (p rest : List Nat) (h : 4 ≤ p.length) :
    Uint32 (p ++ rest) = Uint32 p := by
  match p, h with
  | _ :: _ :: _ :: _ :: _, _ => rfl

theorem RTPDepay.handler_first (fix : List Nat → List Nat) (ps : List Nat) (packet : Packet)
    (p : List Nat) (t : Nat) (hm : packet.Marker = false) (ht : NALUType p = .ok t)
    (hacc : t = NALUTypePFrame ∨ t = NALUTypeSPS ∨ t = NALUTypePPS) :
    RTPDepay.handler fix ps [] packet ⟨p, false⟩ = .ok (p, none) := by
  have hl := NALUType_ok_length p t ht
  have hp : ¬ (p.length = 0) := by omega
  rcases hacc with e | e | e <;> subst e <;>
    simp [RTPDepay.handler, RTPDepay.assemble, RTPDepay.start, RTPDepay.finish, hm, ht, hp,
      bind, Except.bind, pure, Except.pure, NALUTypePFrame, NALUTypeSPS, NALUTypePPS,
      NALUTypeIFrame, NALUTypeSEI, NALUTypeAUD]

theorem RTPDepay.handler_append (fix : List Nat → List Nat) (ps buf : List Nat)
    (packet : Packet) (p : List Nat) (hm : packet.Marker = false) (hb : 0 < buf.length)
    (hsz : buf.length ≤ 5 * 1024 * 1024) (hp : p ≠ []) :
    RTPDepay.handler fix ps buf packet ⟨p, false⟩ = .ok (buf ++ p, none) := by
  have h1 : ¬ (buf.length > 5 * 1024 * 1024) := by omega
  have h2 : ¬ (buf.length = 0) := by omega
  simp [RTPDepay.handler, RTPDepay.assemble, RTPDepay.finish, hm, hp, h1, h2, pure,
    Except.pure]

theorem RTPPay.emit_payloads (ts : Nat) (last : Int) (payloads : List (List Nat)) :
    ∀ i seq, (RTPPay.emit ts last i seq payloads).1.map (fun p => p.Payload) = payloads := by
  induction payloads with
  | nil => intro i seq; rfl
  | cons x rest ih =>
    intro i seq
    simp only [RTPPay.emit, List.map_cons, ih]

theorem RTPPay.emit_header (ts : Nat) (last : Int) (payloads : List (List Nat)) :
    ∀ i seq, ∀ p ∈ (RTPPay.emit ts last i seq payloads).1, p.Version = 2 ∧ p.Timestamp = ts := by
  induction payloads with
  | nil => intro i seq p hp; simp [RTPPay.emit] at hp
  | cons x rest ih =>
    intro i seq p hp
    simp only [RTPPay.emit, List.mem_cons] at hp
    rcases hp with e | hp
    · rw [e]
      exact ⟨rfl, rfl⟩
    · exact ih _ _ p hp

theorem RTPPay.emit_marker (ts : Nat) (last : Int) (payloads : List (List Nat)) :
    ∀ (i seq : Nat), payloads ≠ [] → (i : Int) + (payloads.length : Int) = last + 1 →
      (RTPPay.emit ts last i seq payloads).1.map (fun p => p.Marker)
        = List.replicate (payloads.length - 1) false ++ [true] := by
  induction payloads with
  | nil => intro i seq h; exact absurd rfl h
  | cons x rest ih =>
    intro i seq _ hl
    cases rest with
    | nil =>
      have e : (i : Int) = last := by
        simp only [List.length_cons, List.length_nil] at hl
        omega
      simp [RTPPay.emit, e]
    | cons y r =>
      have ne : ¬ ((i : Int) = last) := by
        simp only [List.length_cons] at hl
        omega
      have hl2 : ((i + 1 : Nat) : Int) + ((y :: r).length : Int) = last + 1 := by
        simp only [List.length_cons] at hl ⊢
        omega
      have h := ih (i + 1) (NextSequenceNumber seq).2 (by simp) hl2
      have step : (RTPPay.emit ts last i seq (x :: y :: r)).1.map (fun p => p.Marker)
          = decide ((i : Int) = last)
            :: (RTPPay.emit ts last (i + 1) (NextSequenceNumber seq).2 (y :: r)).1.map
                (fun p => p.Marker) := rfl
      rw [step, h]
      simp [ne, List.replicate_succ]

/-- Where the packetization bound does hold: for `mtu = 0` or `12 ≤ mtu < 2^16`, with a
payloader that keeps to its limit, every forwarded payload of an AVC-framed packet is
at most `mtu - 12` bytes long (1460 for `mtu = 0`). -/
theorem RTPPay.payload_bound (payloader : Nat → List Nat → List (List Nat)) (mtu seq : Nat)
    (packet : Packet) (hv : packet.Version = RTPPacketVersionAVC)
    (hm : mtu = 0 ∨ (12 ≤ mtu ∧ mtu < 2 ^ 16))
    (hp : ∀ limit payload, ∀ c ∈ payloader limit payload, c.length ≤ limit) :
    ∀ p ∈ (RTPPay payloader mtu seq packet).1,
      p.Payload.length ≤ (if mtu = 0 then 1472 else mtu) - 12 := by
  intro p hmem
  have hmtu : RTPPay.mtu mtu = (if mtu = 0 then 1472 else mtu) - 12 := by
    unfold RTPPay.mtu
    rcases hm with h | ⟨h1, h2⟩
    · subst h
      decide
    · have h0 : ¬ (mtu = 0) := by omega
      simp only [if_neg h0]
      omega
  have hnv : ¬ (packet.Version ≠ RTPPacketVersionAVC) := by simp [hv]
  have hpl := RTPPay.emit_payloads packet.Timestamp
    (((payloader (RTPPay.mtu mtu) packet.Payload).length : Int) - 1)
    (payloader (RTPPay.mtu mtu) packet.Payload) 0 seq
  have hin : p.Payload ∈ payloader (RTPPay.mtu mtu) packet.Payload := by
    rw [← hpl]
    simp only [RTPPay, RTPPay.handler, if_neg hnv] at hmem
    exact List.mem_map_of_mem (fun p => p.Payload) hmem
  rw [← hmtu]
  exact hp _ _ _ hin

theorem RTPDepay.start_wraps (ps : List Nat) :
    ∀ fuel, RTPDepay.start ps fuel [] [0xFF, 0xFF, 0xFF, 0xFC, 0x06] = .error Fault.fuel := by
  intro fuel
  induction fuel with
  | zero => rfl
  | succ f ih =>
    have hu : Uint32 [0xFF, 0xFF, 0xFF, 0xFC, 0x06] = .ok 4294967292 := by decide
    have hs : sliceFrom [0xFF, 0xFF, 0xFF, 0xFC, 0x06] 0 = .ok [0xFF, 0xFF, 0xFF, 0xFC, 0x06] := by
      decide
    have ht : NALUType [0xFF, 0xFF, 0xFF, 0xFC, 0x06] = .ok 6 := by decide
    rw [RTPDepay.start]
    simp only [ht, hu, bind, Except.bind]
    have e : (4 + 4294967292) % 2 ^ 32 = 0 := by decide
    rw [e]
    simp only [hs, ih]
    have h1 : ¬ ((6 : Nat) = NALUTypeIFrame) := by decide
    have h2 : (6 : Nat) = NALUTypeSEI ∨ (6 : Nat) = NALUTypeAUD := by decide
    have h3 : ¬ (0 = ([0xFF, 0xFF, 0xFF, 0xFC, 0x06] : List Nat).length) := by decide
    rw [if_neg h1, if_pos h2, if_neg h3]

theorem patchNAL_length (n : List Nat) : (patchNAL n).length = n.length := by
  unfold patchNAL
  split
  · exact List.length_set _ _ _
  · rfl

theorem patchNAL_headD (n : List Nat) : (patchNAL n).headD 0 = n.headD 0 := by
  unfold patchNAL
  split
  · match n with
    | [] => rfl
    | _ :: _ => rfl
  · rfl

theorem record_append_split (done n rest : List Nat) :
    done ++ (record n ++ rest) = (done ++ bigEndian32 n.length) ++ (n ++ rest) := by
  simp [record]

theorem RTPDepay.patch_step (fuel : Nat) (done n rest : List Nat) (hn : n.length < 2 ^ 32) :
    RTPDepay.patch (fuel + 1) (done ++ (record n ++ rest)) done.length
      = RTPDepay.patch fuel (done ++ (record (patchNAL n) ++ rest))
          (done.length + 4 + n.length) := by
  have hlen : (done ++ (record n ++ rest)).length = done.length + (4 + n.length + rest.length) := by
    simp only [List.length_append, record_length]
  have hpre : (done ++ bigEndian32 n.length).length = done.length + 4 := by
    simp [bigEndian32_length]
  have h4 : done.length + 4 ≤ (done ++ (record n ++ rest)).length := by omega
  have hs : sliceFrom (done ++ (record n ++ rest)) done.length = .ok (record n ++ rest) := by
    rw [sliceFrom, if_pos (by omega), List.drop_left' rfl]
    rfl
  have hu : Uint32 (record n ++ rest) = .ok n.length := Uint32_record n rest hn
  have hgt : ¬ (done.length + 4 + n.length > (done ++ (record n ++ rest)).length) := by omega
  have hsl : slice (done ++ (record n ++ rest)) (done.length + 4) (done.length + 4 + n.length)
      = .ok n := by
    rw [slice, if_pos ⟨by omega, by omega⟩, record_append_split, ← hpre, List.take_append,
      List.take_left' rfl, List.drop_left' rfl]
    rfl
  rw [RTPDepay.patch, if_pos h4]
  simp only [hs, hu, bind, Except.bind]
  rw [if_neg hgt]
  simp only [hsl]
  by_cases h44 : n.length ≥ 4
  · rw [if_pos h44]
    have hx : index n 0 = .ok (n.headD 0) := by
      match n, h44 with
      | _ :: _, _ => rfl
    simp only [hx]
    by_cases hsps : n.headD 0 &&& 31 = NALUTypeSPS
    · rw [if_pos hsps]
      have hpn : patchNAL n = n.set 3 41 := by
        rw [patchNAL, if_pos ⟨h44, hsps⟩]
      have hset : setIndex (done ++ (record n ++ rest)) (done.length + 4 + 3) 41
          = .ok (done ++ (record (n.set 3 41) ++ rest)) := by
        rw [setIndex, if_pos (by omega), record_append_split, record_append_split,
          List.set_append_right _ _ (by omega), hpre, List.length_set]
        have e : done.length + 4 + 3 - (done.length + 4) = 3 := by omega
        rw [e, List.set_append_left _ _ (by omega)]
        rfl
      simp only [hset, hpn]
    · rw [if_neg hsps]
      have hpn : patchNAL n = n := by
        rw [patchNAL, if_neg (fun h => hsps h.2)]
      rw [hpn]
      rfl
  · rw [if_neg h44]
    have hpn : patchNAL n = n := by
      rw [patchNAL, if_neg (fun h => h44 h.1)]
    rw [hpn]
    rfl

theorem records_cons (n : List Nat) (rest : List (List Nat)) :
    records (n :: rest) = record n ++ records rest := rfl

theorem RTPDepay.patch_records (nalus : List (List Nat)) (h : ∀ n ∈ nalus, n.length < 2 ^ 32) :
    ∀ (fuel : Nat) (done : List Nat), nalus.length < fuel →
      RTPDepay.patch fuel (done ++ records nalus) done.length
        = .ok (done ++ records (nalus.map patchNAL)) := by
  induction nalus with
  | nil =>
    intro fuel done hf
    cases fuel with
    | zero => omega
    | succ f =>
      have h4 : ¬ (done.length + 4 ≤ (done ++ records []).length) := by
        simp [records]
      rw [RTPDepay.patch, if_neg h4]
      rfl
  | cons n rest ih =>
    intro fuel done hf
    cases fuel with
    | zero => omega
    | succ f =>
      have hn := h n (List.mem_cons_self _ _)
      have hrest : ∀ m ∈ rest, m.length < 2 ^ 32 := fun m hm => h m (List.mem_cons_of_mem _ hm)
      have e : done.length + 4 + n.length = (done ++ record (patchNAL n)).length := by
        rw [List.length_append, record_length, patchNAL_length]
        omega
      rw [records_cons, RTPDepay.patch_step f done n _ hn, e, ← List.append_assoc,
        ih hrest f (done ++ record (patchNAL n)) (by simpa using hf)]
      simp [records]

theorem records_length_ge (nalus : List (List Nat)) : nalus.length ≤ (records nalus).length := by
  induction nalus with
  | nil => simp
  | cons n rest ih =>
    rw [records_cons, List.length_append, record_length, List.length_cons]
    omega

theorem records_map_patchNAL_length (nalus : List (List Nat)) :
    (records (nalus.map patchNAL)).length = (records nalus).length := by
  induction nalus with
  | nil => rfl
  | cons n rest ih =>
    rw [List.map_cons, records_cons, records_cons, List.length_append, List.length_append,
      record_length, record_length, patchNAL_length, ih]

theorem RTPDepay.patch_records_zero (nalus : List (List Nat))
    (h : ∀ n ∈ nalus, n.length < 2 ^ 32) :
    RTPDepay.patch ((records nalus).length + 1) (records nalus) 0
      = .ok (records (nalus.map patchNAL)) := by
  have e := RTPDepay.patch_records nalus h ((records nalus).length + 1) []
    (Nat.lt_succ_of_le (records_length_ge nalus))
  simpa using e

theorem RTPDepay.finish_of_patch (fix : List Nat → List Nat) (buf payload : List Nat)
    (packet : Packet) (t : Nat) (q : List Nat) (hm : packet.Marker = true)
    (ht : NALUType (if buf.length > 0 then buf ++ payload else payload) = .ok t)
    (hfix : t = NALUTypeSPS →
      ∃ n, Uint32 (if buf.length > 0 then buf ++ payload else payload) = .ok n ∧ n < PSMaxSize)
    (hq : RTPDepay.patch ((if buf.length > 0 then buf ++ payload else payload).length + 1)
      (if buf.length > 0 then buf ++ payload else payload) 0 = .ok q) :
    RTPDepay.finish fix buf payload packet
      = .ok ([], some { packet with Version := RTPPacketVersionAVC, Payload := q }) := by
  have hb : (if buf.length > 0 then ([] : List Nat) else buf) = [] := by
    by_cases h : buf.length > 0
    · rw [if_pos h]
    · rw [if_neg h]
      exact List.length_eq_zero.mp (by omega)
  by_cases hs : t = NALUTypeSPS
  · obtain ⟨n, hn, hlt⟩ := hfix hs
    have hge : ¬ (n ≥ PSMaxSize) := by omega
    simp only [RTPDepay.finish, hm, ht, hn, hs, hge, hq, hb, bind, Except.bind, pure,
      Except.pure, if_true, if_false, Bool.not_true, Bool.false_eq_true]
  · simp only [RTPDepay.finish, hm, ht, hs, hq, hb, bind, Except.bind, pure,
      Except.pure, if_true, if_false, Bool.not_true, Bool.false_eq_true]

theorem RTPDepay.handler_marked_nonempty (fix : List Nat → List Nat) (ps buf : List Nat)
    (packet : Packet) (p : List Nat) (hm : packet.Marker = true) (hb : 0 < buf.length)
    (hsz : buf.length ≤ 5 * 1024 * 1024) (hp : p ≠ [])
    (h4 : PSMaxSize ≤ p.length ∨
      ∃ t4, NALUType p = .ok t4 ∧ t4 ≠ NALUTypeSPS ∧ t4 ≠ NALUTypePPS ∧ t4 ≠ NALUTypeSEI) :
    RTPDepay.handler fix ps buf packet ⟨p, false⟩ = RTPDepay.finish fix buf p packet := by
  have h1 : ¬ (buf.length > 5 * 1024 * 1024) := by omega
  have h2 : ¬ (buf.length = 0) := by omega
  have hasm : RTPDepay.assemble fix ps buf p packet = RTPDepay.finish fix buf p packet := by
    rw [RTPDepay.assemble, if_neg h2]
  by_cases hsmall : p.length < PSMaxSize
  · rcases h4 with h4 | ⟨t4, ht4, n1, n2, n3⟩
    · omega
    · simp [RTPDepay.handler, hm, hp, h1, hsmall, ht4, n1, n2, n3, hasm, bind, Except.bind]
  · simp [RTPDepay.handler, hm, hp, h1, hsmall, hasm]

theorem RTPDepay.handler_marked_ps (fix : List Nat → List Nat) (ps buf : List Nat)
    (packet : Packet) (p : List Nat) (t : Nat) (hm : packet.Marker = true)
    (hsz : buf.length ≤ 5 * 1024 * 1024) (hsmall : p.length < PSMaxSize)
    (ht : NALUType p = .ok t) (hps : t = NALUTypeSPS ∨ t = NALUTypePPS) :
    RTPDepay.handler fix ps buf packet ⟨p, false⟩ = .ok (buf ++ p, none) := by
  have h1 : ¬ (buf.length > 5 * 1024 * 1024) := by omega
  have hl := NALUType_ok_length p t ht
  have hp : ¬ (p.length = 0) := by omega
  simp [RTPDepay.handler, hm, hp, h1, hsmall, ht, hps, bind, Except.bind, pure, Except.pure]

theorem joinSpec_eq_records (nalus : List (List Nat)) (h : ∀ n ∈ nalus, n ≠ []) :
    joinSpec nalus = records nalus := by
  induction nalus with
  | nil => rfl
  | cons n rest ih =>
    have hn : 0 < n.length := List.length_pos.mpr (h n (List.mem_cons_self _ _))
    rw [joinSpec_cons n rest hn, records_cons, ih (fun m hm => h m (List.mem_cons_of_mem _ hm))]

theorem NALUTypes_records (nalus : List (List Nat)) (hne : nalus ≠ [])
    (h : ∀ n ∈ nalus, n ≠ [] ∧ n.length < 2 ^ 32) :
    NALUTypes (records nalus) = .ok (nalus.map (fun n => n.headD 0 &&& 0x1F)) := by
  rw [← joinSpec_eq_records nalus (fun n hn => (h n hn).1), NALUTypes,
    NALUTypes.loop_types nalus hne h _ []
      (Nat.le_succ_of_le (joinSpec_length_ge nalus (fun n hn => (h n hn).1)))]
  rfl

theorem NALUTypes_records_patchNAL (nalus : List (List Nat)) (hne : nalus ≠ [])
    (h : ∀ n ∈ nalus, n ≠ [] ∧ n.length < 2 ^ 32) :
    NALUTypes (records (nalus.map patchNAL))
      = .ok (nalus.map (fun n => n.headD 0 &&& 0x1F)) := by
  have h2 : ∀ n ∈ nalus.map patchNAL, n ≠ [] ∧ n.length < 2 ^ 32 := by
    intro n hn
    obtain ⟨m, hm, e⟩ := List.mem_map.mp hn
    have hm2 := h m hm
    rw [← e]
    constructor
    · intro e2
      have := patchNAL_length m
      rw [e2] at this
      exact hm2.1 (List.length_eq_zero.mp this.symm)
    · rw [patchNAL_length]
      exact hm2.2
  rw [NALUTypes_records _ (by simpa using hne) h2, List.map_map]
  congr 1
  apply List.map_congr_left
  intro n _
  show (patchNAL n).headD 0 &&& 0x1F = n.headD 0 &&& 0x1F
  rw [patchNAL_headD]

theorem NALUType_total (p : List Nat) (h : 5 ≤ p.length) : ∃ t, NALUType p = .ok t := by
  match p, h with
  | _ :: _ :: _ :: _ :: x :: _, _ => exact ⟨x &&& 0x1F, rfl⟩

theorem Uint32_uint32Bytes (v : Nat) (rest : List Nat) :
    Uint32 (uint32Bytes v ++ rest) = .ok (v % 2 ^ 32) := by
  rw [uint32Bytes_eq, Uint32_bigEndian32]

theorem Uint32_joinBytes_lt (sps pps idr : List Nat) (hs : sps.length < PSMaxSize)
    (hp : pps.length < PSMaxSize) (hne : joinBytes [sps, pps] ≠ []) :
    ∃ n, Uint32 (joinBytes [sps, pps] ++ idr) = .ok n ∧ n < PSMaxSize := by
  simp only [PSMaxSize] at hs hp ⊢
  by_cases h1 : 0 < sps.length
  · refine ⟨sps.length, ?_, hs⟩
    simp only [joinBytes, if_pos h1, List.append_assoc]
    rw [Uint32_uint32Bytes, Nat.mod_mod, Nat.mod_eq_of_lt (by omega)]
  · by_cases h2 : 0 < pps.length
    · refine ⟨pps.length, ?_, hp⟩
      simp only [joinBytes, if_neg h1, if_pos h2, List.append_assoc]
      rw [Uint32_uint32Bytes, Nat.mod_mod, Nat.mod_eq_of_lt (by omega)]
    · exact absurd (by simp only [joinBytes, if_neg h1, if_neg h2]) hne

theorem RTPDepay.start_skip (ps : List Nat) (skip : List (List Nat)) (idr : List Nat)
    (hskip : ∀ n ∈ skip, (n.headD 0 &&& 0x1F = NALUTypeSEI ∨ n.headD 0 &&& 0x1F = NALUTypeAUD)
      ∧ n ≠ [] ∧ 4 + n.length < 2 ^ 32)
    (hidr : NALUType idr = .ok NALUTypeIFrame) :
    ∀ fuel, skip.length < fuel →
      RTPDepay.start ps fuel [] (records skip ++ idr) = .ok (some (ps, idr)) := by
  induction skip with
  | nil =>
    intro fuel hf
    cases fuel with
    | zero => omega
    | succ f =>
      show RTPDepay.start ps (f + 1) [] idr = _
      rw [RTPDepay.start]
      simp only [hidr, bind, Except.bind, if_true]
      rfl
  | cons n rest ih =>
    intro fuel hf
    cases fuel with
    | zero => omega
    | succ f =>
      obtain ⟨hty, hne, hlen⟩ := hskip n (List.mem_cons_self _ _)
      have hrest := fun m hm => hskip m (List.mem_cons_of_mem n hm)
      have h5 := NALUType_ok_length idr _ hidr
      have ht : NALUType (record n ++ (records rest ++ idr)) = .ok (n.headD 0 &&& 0x1F) := by
        match n, hne with
        | x :: l, _ => exact NALUType_record x l _
      have hu : Uint32 (record n ++ (records rest ++ idr)) = .ok n.length :=
        Uint32_record n _ (by omega)
      have hni : ¬ (n.headD 0 &&& 0x1F = NALUTypeIFrame) := by
        rcases hty with e | e <;> rw [e] <;> decide
      have hmod : (4 + n.length) % 2 ^ 32 = n.length + 4 := by
        rw [Nat.mod_eq_of_lt hlen]
        omega
      have hnl : ¬ (n.length + 4 = (record n ++ (records rest ++ idr)).length) := by
        simp only [List.length_append, record_length]
        omega
      rw [records_cons, List.append_assoc, RTPDepay.start]
      simp only [ht, hu, bind, Except.bind, if_neg hni, if_pos hty, hmod, if_neg hnl,
        sliceFrom_record]
      exact ih hrest f (by simpa using hf)

theorem RTPDepay.handler_marked_start (fix : List Nat → List Nat) (ps ps1 : List Nat)
    (packet : Packet) (cand idr : List Nat) (tc : Nat) (hm : packet.Marker = true)
    (htc : NALUType cand = .ok tc) (hn1 : tc ≠ NALUTypeSPS) (hn2 : tc ≠ NALUTypePPS)
    (h4 : PSMaxSize ≤ cand.length ∨ tc ≠ NALUTypeSEI)
    (hstart : RTPDepay.start ps (cand.length + 1) [] cand = .ok (some (ps1, idr))) :
    RTPDepay.handler fix ps [] packet ⟨cand, false⟩ = RTPDepay.finish fix ps1 idr packet := by
  have hcl := NALUType_ok_length cand tc htc
  have hcne : cand ≠ [] := by
    intro e
    rw [e] at hcl
    simp at hcl
  have hz : ([] : List Nat).length = 0 := rfl
  have hasm : RTPDepay.assemble fix ps [] cand packet = RTPDepay.finish fix ps1 idr packet := by
    rw [RTPDepay.assemble, if_pos hz]
    simp only [hstart, bind, Except.bind]
  by_cases hsmall : cand.length < PSMaxSize
  · have hnsei : tc ≠ NALUTypeSEI := by
      rcases h4 with h | h
      · omega
      · exact h
    simp [RTPDepay.handler, hm, hcne, hsmall, htc, hn1, hn2, hnsei, hasm, bind, Except.bind]
  · simp [RTPDepay.handler, hm, hcne, hsmall, hasm]

theorem Uint32_take (avcc : List Nat) (k n : Nat) (hk : 4 ≤ k) (h : Uint32 avcc = .ok n) :
    Uint32 (avcc.take k) = .ok n := by
  match avcc, k, hk, h with
  | _ :: _ :: _ :: _ :: _, k + 4, _, h => exact h

theorem SplitNALU.loop_partition : ∀ (fuel : Nat) (avcc : List Nat) (acc recs : List (List Nat)),
    SplitNALU.loop fuel avcc acc = .ok recs →
    ∃ rs, recs = acc ++ rs ∧ rs ≠ [] ∧ rs.flatten = avcc ∧
      ∀ r ∈ rs.dropLast, ∃ n, Uint32 r = .ok n ∧ r.length = 4 + n
  | 0, _, _, _, h => by
    exact absurd h (by
      intro e
      cases e)
  | fuel + 1, avcc, acc, recs, h => by
    rw [SplitNALU.loop] at h
    cases hu : Uint32 avcc with
    | error e =>
      rw [hu] at h
      cases h
    | ok n =>
      rw [hu] at h
      simp only [bind, Except.bind] at h
      by_cases hlt : n + 4 < avcc.length
      · rw [if_pos hlt] at h
        obtain ⟨rs, e, hne, hj, hr⟩ := SplitNALU.loop_partition fuel _ _ _ h
        refine ⟨avcc.take (n + 4) :: rs, ?_, by simp, ?_, ?_⟩
        · rw [e]
          simp
        · rw [List.flatten_cons, hj, List.take_append_drop]
        · intro r hmem
          rw [List.dropLast_cons_of_ne_nil hne, List.mem_cons] at hmem
          rcases hmem with e2 | hmem
          · refine ⟨n, ?_, ?_⟩
            · rw [e2]
              exact Uint32_take avcc (n + 4) n (by omega) hu
            · rw [e2, List.length_take]
              omega
          · exact hr r hmem
      · rw [if_neg hlt] at h
        refine ⟨[avcc], (Except.ok.inj h).symm, by simp, by simp, ?_⟩
        intro r hmem
        simp at hmem

/-- What `SplitNALU` does return, when it returns: a non-empty list of records whose
concatenation is the input; every record but the last is 4 bytes plus its declared
length long. -/
theorem SplitNALU_partition_of_ok (avcc : List Nat) (recs : List (List Nat))
    (h : SplitNALU avcc = .ok recs) :
    recs ≠ [] ∧ recs.flatten = avcc ∧
      ∀ r ∈ recs.dropLast, ∃ n, Uint32 r = .ok n ∧ r.length = 4 + n := by
  obtain ⟨rs, e, hne, hj, hr⟩ := SplitNALU.loop_partition _ avcc [] recs h
  rw [List.nil_append] at e
  rw [e]
  exact ⟨hne, hj, hr⟩

theorem Uint32_bigEndianValue (b : List Nat) (h : 4 ≤ b.length) :
    Uint32 b = .ok (bigEndianValue b) := by
  match b, h with
  | b0 :: b1 :: b2 :: b3 :: rest, _ =>
    rw [Uint32_cons]
    show Except.ok _ = Except.ok (b0 % 256 * 256 ^ 3 + b1 % 256 * 256 ^ 2 + b2 % 256 * 256
      + b3 % 256)
    congr 1

theorem RTPDepay.patch_step_prefix (fuel : Nat) (done pre n rest : List Nat)
    (hpre : pre.length = 4) (hu : Uint32 (pre ++ (n ++ rest)) = .ok n.length) :
    RTPDepay.patch (fuel + 1) (done ++ (pre ++ (n ++ rest))) done.length
      = RTPDepay.patch fuel (done ++ (pre ++ (patchNAL n ++ rest)))
          (done.length + 4 + n.length) := by
  have hlen : (done ++ (pre ++ (n ++ rest))).length
      = done.length + (4 + n.length + rest.length) := by
    simp only [List.length_append, hpre]
    omega
  have hsplit : ∀ m : List Nat, done ++ (pre ++ (m ++ rest)) = (done ++ pre) ++ (m ++ rest) := by
    intro m
    simp
  have hdp : (done ++ pre).length = done.length + 4 := by
    rw [List.length_append, hpre]
  have h4 : done.length + 4 ≤ (done ++ (pre ++ (n ++ rest))).length := by omega
  have hs : sliceFrom (done ++ (pre ++ (n ++ rest))) done.length = .ok (pre ++ (n ++ rest)) := by
    rw [sliceFrom, if_pos (by omega), List.drop_left' rfl]
    rfl
  have hgt : ¬ (done.length + 4 + n.length > (done ++ (pre ++ (n ++ rest))).length) := by omega
  have hsl : slice (done ++ (pre ++ (n ++ rest))) (done.length + 4)
      (done.length + 4 + n.length) = .ok n := by
    rw [slice, if_pos ⟨by omega, by omega⟩, hsplit, ← hdp, List.take_append,
      List.take_left' rfl, List.drop_left' rfl]
    rfl
  rw [RTPDepay.patch, if_pos h4]
  simp only [hs, hu, bind, Except.bind]
  rw [if_neg hgt]
  simp only [hsl]
  by_cases h44 : n.length ≥ 4
  · rw [if_pos h44]
    have hx : index n 0 = .ok (n.headD 0) := by
      match n, h44 with
      | _ :: _, _ => rfl
    simp only [hx]
    by_cases hsps : n.headD 0 &&& 31 = NALUTypeSPS
    · rw [if_pos hsps]
      have hpn : patchNAL n = n.set 3 41 := by
        rw [patchNAL, if_pos ⟨h44, hsps⟩]
      have hset : setIndex (done ++ (pre ++ (n ++ rest))) (done.length + 4 + 3) 41
          = .ok (done ++ (pre ++ (n.set 3 41 ++ rest))) := by
        rw [setIndex, if_pos (by omega), hsplit, hsplit,
          List.set_append_right _ _ (by omega), hdp]
        have e : done.length + 4 + 3 - (done.length + 4) = 3 := by omega
        rw [e, List.set_append_left _ _ (by omega)]
        rfl
      simp only [hset, hpn]
    · rw [if_neg hsps]
      have hpn : patchNAL n = n := by
        rw [patchNAL, if_neg (fun h => hsps h.2)]
      rw [hpn]
      rfl
  · rw [if_neg h44]
    have hpn : patchNAL n = n := by
      rw [patchNAL, if_neg (fun h => h44 h.1)]
    rw [hpn]
    rfl

theorem RTPDepay.patch_stop (fuel : Nat) (done b : List Nat)
    (h : b.length < 4 ∨ b.length < 4 + bigEndianValue b) :
    RTPDepay.patch (fuel + 1) (done ++ b) done.length = .ok (done ++ b) := by
  rw [RTPDepay.patch]
  by_cases h4 : done.length + 4 ≤ (done ++ b).length
  · have hb : 4 ≤ b.length := by
      rw [List.length_append] at h4
      omega
    have hlt : b.length < 4 + bigEndianValue b := by
      rcases h with h | h
      · omega
      · exact h
    have hs : sliceFrom (done ++ b) done.length = .ok b := by
      rw [sliceFrom, if_pos (by omega), List.drop_left' rfl]
      rfl
    have hgt : done.length + 4 + bigEndianValue b > (done ++ b).length := by
      rw [List.length_append]
      omega
    rw [if_pos h4]
    simp only [hs, Uint32_bigEndianValue b hb, bind, Except.bind]
    rw [if_pos hgt]
    rfl
  · rw [if_neg h4]
    rfl

theorem RTPDepay.patch_eq_walk : ∀ (f : Nat) (b done : List Nat), b.length ≤ f →
    RTPDepay.patch (f + 1) (done ++ b) done.length = .ok (done ++ levelPatch.walk f b)
  | 0, b, done, h => by
    have e : b = [] := List.length_eq_zero.mp (by omega)
    subst e
    exact RTPDepay.patch_stop 0 done [] (Or.inl (by simp))
  | f + 1, b, done, h => by
    by_cases h4 : b.length < 4
    · rw [levelPatch.walk, if_pos h4]
      exact RTPDepay.patch_stop _ done b (Or.inl h4)
    · by_cases hlt : b.length < 4 + bigEndianValue b
      · rw [levelPatch.walk, if_neg h4, if_pos hlt]
        exact RTPDepay.patch_stop _ done b (Or.inr hlt)
      · rw [levelPatch.walk, if_neg h4, if_neg hlt]
        have hb : b = b.take 4 ++ ((b.drop 4).take (bigEndianValue b)
            ++ b.drop (4 + bigEndianValue b)) := by
          rw [← List.drop_drop, List.take_append_drop, List.take_append_drop]
        have hpre : (b.take 4).length = 4 := by
          rw [List.length_take]
          omega
        have hnl : ((b.drop 4).take (bigEndianValue b)).length = bigEndianValue b := by
          rw [List.length_take, List.length_drop]
          omega
        have hu : Uint32 (b.take 4 ++ ((b.drop 4).take (bigEndianValue b)
            ++ b.drop (4 + bigEndianValue b)))
            = .ok ((b.drop 4).take (bigEndianValue b)).length := by
          rw [← hb, hnl]
          exact Uint32_bigEndianValue b (by omega)
        have hstep := RTPDepay.patch_step_prefix (f + 1) done (b.take 4)
          ((b.drop 4).take (bigEndianValue b)) (b.drop (4 + bigEndianValue b)) hpre hu
        rw [← hb] at hstep
        have hd : done.length + 4 + ((b.drop 4).take (bigEndianValue b)).length
            = (done ++ b.take 4 ++ patchNAL ((b.drop 4).take (bigEndianValue b))).length := by
          simp only [List.length_append, hpre, patchNAL_length]
        have hre : done ++ (b.take 4 ++ (patchNAL ((b.drop 4).take (bigEndianValue b))
              ++ b.drop (4 + bigEndianValue b)))
            = (done ++ b.take 4 ++ patchNAL ((b.drop 4).take (bigEndianValue b)))
              ++ b.drop (4 + bigEndianValue b) := by
          simp
        rw [hstep, hd, hre, RTPDepay.patch_eq_walk f (b.drop (4 + bigEndianValue b)) _ (by
          rw [List.length_drop]
          omega)]
        simp

/-- The level-patch loop of `RTPDepay` never faults and computes the level patch of the
spec on every buffer. -/
theorem RTPDepay.patch_eq_levelPatch (payload : List Nat) :
    RTPDepay.patch (payload.length + 1) payload 0 = .ok (levelPatch payload) := by
  have h := RTPDepay.patch_eq_walk payload.length payload [] (Nat.le_refl _)
  simpa [levelPatch] using h

theorem levelPatch_records (nalus : List (List Nat)) (h : ∀ n ∈ nalus, n.length < 2 ^ 32) :
    levelPatch (records nalus) = records (nalus.map patchNAL) := by
  have h1 := RTPDepay.patch_eq_levelPatch (records nalus)
  rw [RTPDepay.patch_records_zero nalus h] at h1
  exact (Except.ok.inj h1).symm

theorem RTPDepay.handler_emit_levelPatch (fix : List Nat → List Nat) (ps buf : List Nat)
    (packet : Packet) (p : List Nat) (t : Nat) (hm : packet.Marker = true)
    (hsz : buf.length ≤ 5 * 1024 * 1024) (hp : p ≠ [])
    (ht : NALUType buf = .ok t)
    (hfix : t = NALUTypeSPS → ∃ n, Uint32 buf = .ok n ∧ n < PSMaxSize)
    (h4 : PSMaxSize ≤ p.length ∨
      ∃ t4, NALUType p = .ok t4 ∧ t4 ≠ NALUTypeSPS ∧ t4 ≠ NALUTypePPS ∧ t4 ≠ NALUTypeSEI) :
    RTPDepay.handler fix ps buf packet ⟨p, false⟩
      = .ok ([], some { packet with Version := RTPPacketVersionAVC,
                                    Payload := levelPatch (buf ++ p) }) := by
  have h5 := NALUType_ok_length buf t ht
  have hb : buf.length > 0 := by omega
  have hasm : (if buf.length > 0 then buf ++ p else p) = buf ++ p := if_pos hb
  rw [RTPDepay.handler_marked_nonempty fix ps buf packet p hm hb hsz hp h4]
  apply RTPDepay.finish_of_patch fix buf p packet t _ hm
  · rw [hasm]
    exact NALUType_append buf p t ht
  · intro hs
    rw [hasm, Uint32_append buf p (by omega)]
    exact hfix hs
  · rw [hasm]
    exact RTPDepay.patch_eq_levelPatch _

/-! ## The claims -/

/-- C1, as stated, fails: for the single one-byte unit `65`, `SplitNALU(JoinNALU(nalus))`
is the one record `00 00 00 01 65`, length prefix included, and not the unit `65`. -/
theorem SplitNALU_JoinNALU_ne_units :
    ([[0x65]] : List (List Nat)) ≠ [] ∧
    (∀ n ∈ ([[0x65]] : List (List Nat)), n ≠ [] ∧ n.length < 2 ^ 32) ∧
    (JoinNALU [[0x65]] >>= SplitNALU) = .ok [[0, 0, 0, 1, 0x65]] ∧
    (JoinNALU [[0x65]] >>= SplitNALU) ≠ .ok [[0x65]] := by
  decide

/-- C1, amended: for every non-empty list of non-empty NAL units, each shorter than 2^32
bytes, `SplitNALU(JoinNALU(nalus))` returns one length-prefixed record per unit, in the
same order: the unit's length as 4 big-endian bytes followed by the unit's bytes.
Dropping the 4-byte prefix of each record gives back `nalus`. -/
theorem SplitNALU_JoinNALU_records (nalus : List (List Nat)) (hne : nalus ≠ [])
    (h : ∀ n ∈ nalus, n ≠ [] ∧ n.length < 2 ^ 32) :
    (JoinNALU nalus >>= SplitNALU) = .ok (nalus.map record) ∧
    (nalus.map record).map (List.drop 4) = nalus := by
  refine ⟨?_, map_drop_record nalus⟩
  rw [JoinNALU_eq nalus (fun n hn => (h n hn).2)]
  show SplitNALU (joinSpec nalus) = _
  rw [SplitNALU, SplitNALU.loop_records nalus hne h _ []
    (Nat.le_succ_of_le (joinSpec_length_ge nalus (fun n hn => (h n hn).1)))]
  rfl

theorem SplitNALU_JoinNALU_records_witness :
    ([[0x67, 0x64, 0, 0x1f], [0x68, 0xee]] : List (List Nat)) ≠ [] ∧
    (JoinNALU [[0x67, 0x64, 0, 0x1f], [0x68, 0xee]] >>= SplitNALU)
      = .ok [[0, 0, 0, 4, 0x67, 0x64, 0, 0x1f], [0, 0, 0, 2, 0x68, 0xee]] :=
  ⟨by decide,
   (SplitNALU_JoinNALU_records [[0x67, 0x64, 0, 0x1f], [0x68, 0xee]] (by decide)
      (by decide)).1⟩

/-- C2: for every list of byte sequences, each shorter than 2^32 bytes, `JoinNALU(nalus)`
is the in-order concatenation, over the non-empty units only, of the unit's length as a
4-byte big-endian integer followed by the unit's bytes; the 4 prefix bytes decode to the
unit's length; the length of the result is the sum of `4 + len` over the non-empty units;
and `JoinNALU` gives the same result on `nalus` with the empty entries removed. -/
theorem JoinNALU_spec (nalus : List (List Nat)) (h : ∀ n ∈ nalus, n.length < 2 ^ 32) :
    JoinNALU nalus = .ok (joinSpec nalus) ∧
    (∀ n ∈ nalus, Uint32 (bigEndian32 n.length) = .ok n.length) ∧
    (joinSpec nalus).length
      = ((nalus.filter (fun n => decide (n ≠ []))).map (fun n => 4 + n.length)).sum ∧
    JoinNALU nalus = JoinNALU (nalus.filter (fun n => decide (n ≠ []))) := by
  refine ⟨JoinNALU_eq nalus h, ?_, joinSpec_length nalus, ?_⟩
  · intro n hn
    have e := Uint32_bigEndian32 n.length []
    rw [List.append_nil, Nat.mod_eq_of_lt (h n hn)] at e
    exact e
  · rw [JoinNALU_eq nalus h, JoinNALU_eq _ (fun n hn => h n (List.mem_of_mem_filter hn)),
      joinSpec_filter]

theorem JoinNALU_spec_witness :
    JoinNALU [[0x65, 1, 2], [], [0x67]] = .ok (joinSpec [[0x65, 1, 2], [], [0x67]]) ∧
    joinSpec [[0x65, 1, 2], [], [0x67]] = [0, 0, 0, 3, 0x65, 1, 2, 0, 0, 0, 1, 0x67] :=
  ⟨(JoinNALU_spec [[0x65, 1, 2], [], [0x67]] (by decide)).1, by decide⟩

/-- C3: for every non-empty list of non-empty NAL units (units that fit a 32-bit length
field), `NALUTypes(JoinNALU(nalus))` is the list of `first byte AND 0x1F` of each unit,
in input order, one entry per unit. -/
theorem NALUTypes_JoinNALU (nalus : List (List Nat)) (hne : nalus ≠ [])
    (h : ∀ n ∈ nalus, n ≠ [] ∧ n.length < 2 ^ 32) :
    (JoinNALU nalus >>= NALUTypes) = .ok (nalus.map (fun n => n.headD 0 &&& 0x1F)) := by
  rw [JoinNALU_eq nalus (fun n hn => (h n hn).2)]
  show NALUTypes (joinSpec nalus) = _
  rw [NALUTypes, NALUTypes.loop_types nalus hne h _ []
    (Nat.le_succ_of_le (joinSpec_length_ge nalus (fun n hn => (h n hn).1)))]
  rfl

theorem NALUTypes_JoinNALU_witness :
    ([[0x67, 0x64, 0, 0x1f], [0x68, 0xee], [0x65, 0x88]] : List (List Nat)) ≠ [] ∧
    (JoinNALU [[0x67, 0x64, 0, 0x1f], [0x68, 0xee], [0x65, 0x88]] >>= NALUTypes)
      = .ok [7, 8, 5] :=
  ⟨by decide,
   NALUTypes_JoinNALU [[0x67, 0x64, 0, 0x1f], [0x68, 0xee], [0x65, 0x88]] (by decide)
     (by decide)⟩

/-- C4: what the code does on a buffer shorter than 4 bytes: `SplitNALU` reads the
length field without a check and panics with an index out of range. -/
theorem SplitNALU_short_panics (avcc : List Nat) (h : avcc.length < 4) :
    SplitNALU avcc = .error Fault.indexOutOfRange := by
  match avcc, h with
  | [], _ => rfl
  | [_], _ => rfl
  | [_, _], _ => rfl
  | [_, _, _], _ => rfl
  | _ :: _ :: _ :: _ :: _, h => exact absurd h (by simp)

theorem SplitNALU_short_panics_witness :
    JoinNALU [] = .ok [] ∧ ([] : List Nat).length < 4 ∧
    SplitNALU [] = .error Fault.indexOutOfRange :=
  ⟨by decide, by decide, SplitNALU_short_panics [] (by decide)⟩

/-- C5, as stated, fails: for the key-frame payload `00 00 00 02 65 88` with negotiated
SPS `67 64 00 1f` and PPS `68 ee`, the forwarded payload is SPS record, PPS record, AUD,
payload, and not AUD, SPS record, PPS record, payload. -/
theorem RepairAVCC_iframe_ne_aud_first :
    NALUType [0, 0, 0, 2, 0x65, 0x88] = .ok 5 ∧
    JoinNALU [[0x67, 0x64, 0, 0x1f], [0x68, 0xee]]
      = .ok [0, 0, 0, 4, 0x67, 0x64, 0, 0x1f, 0, 0, 0, 2, 0x68, 0xee] ∧
    (RepairAVCC [0x67, 0x64, 0, 0x1f] [0x68, 0xee]
        ⟨0, true, 96, 1, 2, 3, [0, 0, 0, 2, 0x65, 0x88]⟩).map (fun p => p.Payload)
      = .ok ([0, 0, 0, 4, 0x67, 0x64, 0, 0x1f, 0, 0, 0, 2, 0x68, 0xee]
          ++ [0, 0, 0, 2, 0x09, 0xF0] ++ [0, 0, 0, 2, 0x65, 0x88]) ∧
    (RepairAVCC [0x67, 0x64, 0, 0x1f] [0x68, 0xee]
        ⟨0, true, 96, 1, 2, 3, [0, 0, 0, 2, 0x65, 0x88]⟩).map (fun p => p.Payload)
      ≠ .ok ([0, 0, 0, 2, 0x09, 0xF0]
          ++ [0, 0, 0, 4, 0x67, 0x64, 0, 0x1f, 0, 0, 0, 2, 0x68, 0xee]
          ++ [0, 0, 0, 2, 0x65, 0x88]) := by
  decide

/-- C5, amended: for every AVCC payload whose leading NAL has type 5 (IDR) and every
negotiated SPS and PPS (each shorter than 2^32 bytes), the packet forwarded by the
`RepairAVCC` handler is the input packet with payload
SPS-record ++ PPS-record ++ AUD ++ originalPayload, in that byte order, where AUD is
`00 00 00 02 09 F0` and the records are those of the non-empty parameter sets. -/
theorem RepairAVCC_iframe_records (sps pps : List Nat) (packet : Packet)
    (hs : sps.length < 2 ^ 32) (hp : pps.length < 2 ^ 32)
    (h : NALUType packet.Payload = .ok NALUTypeIFrame) :
    RepairAVCC sps pps packet
      = .ok { packet with
              Payload := joinSpec [sps, pps] ++ [0x00, 0x00, 0x00, 0x02, 0x09, 0xF0]
                ++ packet.Payload } := by
  have hj : JoinNALU [sps, pps] = .ok (joinSpec [sps, pps]) := by
    apply JoinNALU_eq
    intro n hn
    simp at hn
    rcases hn with e | e <;> rw [e] <;> assumption
  rw [RepairAVCC, hj]
  exact RepairAVCC.handler_iframe _ packet h

theorem RepairAVCC_iframe_records_witness :
    NALUType [0, 0, 0, 2, 0x65, 0x88] = .ok NALUTypeIFrame ∧
    RepairAVCC [0x67, 0x64, 0, 0x1f] [0x68, 0xee]
        ⟨0, true, 96, 1, 2, 3, [0, 0, 0, 2, 0x65, 0x88]⟩
      = .ok ⟨0, true, 96, 1, 2, 3,
          joinSpec [[0x67, 0x64, 0, 0x1f], [0x68, 0xee]] ++ [0x00, 0x00, 0x00, 0x02, 0x09, 0xF0]
            ++ [0, 0, 0, 2, 0x65, 0x88]⟩ :=
  ⟨by decide,
   RepairAVCC_iframe_records [0x67, 0x64, 0, 0x1f] [0x68, 0xee]
     ⟨0, true, 96, 1, 2, 3, [0, 0, 0, 2, 0x65, 0x88]⟩ (by decide) (by decide) (by decide)⟩

/-- C6: for every AVCC payload whose leading NAL has type 5 (IDR), `JoinNALU(sps, pps)`
returns a buffer `ps` and the packet forwarded by the `RepairAVCC` handler is the input
packet with payload `ps ++ AUD ++ originalPayload`: the joined SPS+PPS ahead of the
delimiter, the delimiter ahead of the original payload. -/
theorem RepairAVCC_iframe (sps pps : List Nat) (packet : Packet)
    (h : NALUType packet.Payload = .ok NALUTypeIFrame) :
    ∃ ps, JoinNALU [sps, pps] = .ok ps ∧
      RepairAVCC sps pps packet = .ok { packet with Payload := ps ++ aud ++ packet.Payload } := by
  refine ⟨joinBytes [sps, pps], JoinNALU_ok _, ?_⟩
  rw [RepairAVCC, JoinNALU_ok]
  exact RepairAVCC.handler_iframe _ packet h

theorem RepairAVCC_iframe_witness :
    NALUType [0, 0, 0, 3, 0x25, 0x88, 0x84] = .ok NALUTypeIFrame ∧
    ∃ ps, JoinNALU [[0x27, 0x42, 0, 0x1e], [0x28, 0xce]] = .ok ps ∧
      RepairAVCC [0x27, 0x42, 0, 0x1e] [0x28, 0xce]
          ⟨0, false, 0, 0, 0, 0, [0, 0, 0, 3, 0x25, 0x88, 0x84]⟩
        = .ok ⟨0, false, 0, 0, 0, 0, ps ++ aud ++ [0, 0, 0, 3, 0x25, 0x88, 0x84]⟩ :=
  ⟨by decide,
   RepairAVCC_iframe [0x27, 0x42, 0, 0x1e] [0x28, 0xce]
     ⟨0, false, 0, 0, 0, 0, [0, 0, 0, 3, 0x25, 0x88, 0x84]⟩ (by decide)⟩

/-- C7: for every AVCC payload whose leading NAL has type 1 (predicted frame), the packet
forwarded by the `RepairAVCC` handler is the input packet with payload
`00 00 00 02 09 F0` followed by the original payload, no parameter sets inserted; and
when the payload is one SEI record followed by a buffer whose leading NAL is a predicted
frame, the forwarded payload is `00 00 00 02 09 F0` followed by the payload without that
SEI record. -/
theorem RepairAVCC_pframe (sps pps : List Nat) (packet : Packet) :
    (NALUType packet.Payload = .ok NALUTypePFrame →
      RepairAVCC sps pps packet
        = .ok { packet with
                Payload := [0x00, 0x00, 0x00, 0x02, 0x09, 0xF0] ++ packet.Payload }) ∧
    (∀ sei rest : List Nat, packet.Payload = record sei ++ rest → sei.length < 2 ^ 32 →
      NALUType packet.Payload = .ok NALUTypeSEI → NALUType rest = .ok NALUTypePFrame →
      RepairAVCC sps pps packet
        = .ok { packet with Payload := [0x00, 0x00, 0x00, 0x02, 0x09, 0xF0] ++ rest }) := by
  constructor
  · intro h
    rw [RepairAVCC, JoinNALU_ok]
    exact RepairAVCC.handler_pframe _ packet h
  · intro sei rest hp hlen hs h
    rw [RepairAVCC, JoinNALU_ok]
    exact RepairAVCC.handler_sei_pframe _ packet sei rest hp hlen hs h

theorem RepairAVCC_pframe_witness :
    (NALUType [0, 0, 0, 2, 0x41, 0x9a] = .ok NALUTypePFrame ∧
      RepairAVCC [0x67, 0x64, 0, 0x1f] [0x68, 0xee] ⟨0, true, 96, 1, 2, 3, [0, 0, 0, 2, 0x41, 0x9a]⟩
        = .ok ⟨0, true, 96, 1, 2, 3, [0, 0, 0, 2, 0x09, 0xF0, 0, 0, 0, 2, 0x41, 0x9a]⟩) ∧
    (NALUType [0, 0, 0, 2, 0x06, 0x05, 0, 0, 0, 2, 0x41, 0x9a] = .ok NALUTypeSEI ∧
      NALUType [0, 0, 0, 2, 0x41, 0x9a] = .ok NALUTypePFrame ∧
      RepairAVCC [0x67, 0x64, 0, 0x1f] [0x68, 0xee]
          ⟨0, true, 96, 1, 2, 3, [0, 0, 0, 2, 0x06, 0x05, 0, 0, 0, 2, 0x41, 0x9a]⟩
        = .ok ⟨0, true, 96, 1, 2, 3, [0, 0, 0, 2, 0x09, 0xF0, 0, 0, 0, 2, 0x41, 0x9a]⟩) :=
  ⟨⟨by decide,
    (RepairAVCC_pframe [0x67, 0x64, 0, 0x1f] [0x68, 0xee]
      ⟨0, true, 96, 1, 2, 3, [0, 0, 0, 2, 0x41, 0x9a]⟩).1 (by decide)⟩,
   ⟨by decide, by decide,
    (RepairAVCC_pframe [0x67, 0x64, 0, 0x1f] [0x68, 0xee]
      ⟨0, true, 96, 1, 2, 3, [0, 0, 0, 2, 0x06, 0x05, 0, 0, 0, 2, 0x41, 0x9a]⟩).2
      [0x06, 0x05] [0, 0, 0, 2, 0x41, 0x9a] (by decide) (by decide) (by decide) (by decide)⟩⟩

/-- C8: what the code does on three payloads.  A leading SEI record that declares 9
bytes where 1 is present makes `packet.Payload[size:]` panic (slice bounds out of
range); a payload that is exactly one SEI record leaves an empty payload whose NAL type
is then read (index out of range); so does a payload shorter than 5 bytes.  No packet is
forwarded in any of the three runs. -/
theorem RepairAVCC_panics :
    RepairAVCC [0x67, 0x64, 0, 0x1f] [0x68, 0xee] ⟨0, true, 96, 1, 2, 3, [0, 0, 0, 9, 0x06]⟩
      = .error Fault.sliceBoundsOutOfRange ∧
    RepairAVCC [0x67, 0x64, 0, 0x1f] [0x68, 0xee] ⟨0, true, 96, 1, 2, 3, [0, 0, 0, 1, 0x06]⟩
      = .error Fault.indexOutOfRange ∧
    RepairAVCC [0x67, 0x64, 0, 0x1f] [0x68, 0xee] ⟨0, true, 96, 1, 2, 3, [0, 0, 0, 0]⟩
      = .error Fault.indexOutOfRange := by
  decide

/-- C9: for every SPS NAL `sps = s0 :: s1 :: s2 :: s3 :: stail` (type 7, length at least
4) and PPS NAL `pps = p0 :: ptail` (type 8, non-empty), both fitting a 32-bit length
field, `AVCCToCodec(JoinNALU(sps, pps))` returns the codec with name `H264`, clock rate
90000, the raw payload-type sentinel, and `FmtpLine` equal to
`packetization-mode=1;profile-level-id=` ++ hex(s1, s2, 0x29) ++
`;sprop-parameter-sets=` ++ base64(sps with byte 3 replaced by 0x29) ++ `,` ++
base64(pps). -/
theorem AVCCToCodec_JoinNALU (s0 s1 s2 s3 : Nat) (stail : List Nat) (p0 : Nat)
    (ptail : List Nat)
    (hs : (s0 :: s1 :: s2 :: s3 :: stail).length < 2 ^ 32)
    (hp : (p0 :: ptail).length < 2 ^ 32)
    (hts : s0 &&& 0x1F = 7) (htp : p0 &&& 0x1F = 8) :
    (JoinNALU [s0 :: s1 :: s2 :: s3 :: stail, p0 :: ptail] >>= AVCCToCodec)
      = .ok { Name := "H264"
              ClockRate := 90000
              FmtpLine := "packetization-mode=1;profile-level-id="
                ++ hexEncodeToString [s1, s2, 0x29]
                ++ ";sprop-parameter-sets="
                ++ base64StdEncodeToString (s0 :: s1 :: s2 :: 0x29 :: stail)
                ++ "," ++ base64StdEncodeToString (p0 :: ptail)
              PayloadType := PayloadType.RAW } := by
  have hj : JoinNALU [s0 :: s1 :: s2 :: s3 :: stail, p0 :: ptail]
      = .ok (joinSpec [s0 :: s1 :: s2 :: s3 :: stail, p0 :: ptail]) := by
    apply JoinNALU_eq
    intro n hn
    simp only [List.mem_cons, List.mem_singleton, List.not_mem_nil, or_false] at hn
    rcases hn with e | e <;> rw [e] <;> assumption
  rw [hj, joinSpec_pair _ _ (by simp) (by simp)]
  show AVCCToCodec _ = _
  obtain ⟨f, hf⟩ : ∃ f, (record (s0 :: s1 :: s2 :: s3 :: stail)
      ++ (record (p0 :: ptail) ++ [])).length = f + 2 := by
    refine ⟨(record (s0 :: s1 :: s2 :: s3 :: stail)
      ++ (record (p0 :: ptail) ++ [])).length - 2, ?_⟩
    simp only [List.length_append, record_length, List.length_cons]
    omega
  have e : ("packetization-mode=1" : String) ++ ";profile-level-id="
      = "packetization-mode=1;profile-level-id=" := by decide
  rw [AVCCToCodec, hf, AVCCToCodec.loop_sps _ s0 s1 s2 s3 stail _ _ hs hts,
    AVCCToCodec.loop_pps _ p0 ptail _ _ hp htp, AVCCToCodec.loop_nil, e]
  rfl

theorem AVCCToCodec_JoinNALU_witness :
    (0x67 &&& 0x1F = 7 ∧ 0x68 &&& 0x1F = 8) ∧
    (JoinNALU [[0x67, 0x64, 0x00, 0x1f, 0xac], [0x68, 0xee, 0x3c, 0x80]] >>= AVCCToCodec)
      = .ok { Name := "H264"
              ClockRate := 90000
              FmtpLine := "packetization-mode=1;profile-level-id="
                ++ hexEncodeToString [0x64, 0x00, 0x29]
                ++ ";sprop-parameter-sets="
                ++ base64StdEncodeToString [0x67, 0x64, 0x00, 0x29, 0xac]
                ++ "," ++ base64StdEncodeToString [0x68, 0xee, 0x3c, 0x80]
              PayloadType := PayloadType.RAW } :=
  ⟨by decide,
   AVCCToCodec_JoinNALU 0x67 0x64 0x00 0x1f [0xac] 0x68 [0xee, 0x3c, 0x80] (by decide)
     (by decide) (by decide) (by decide)⟩

/-- C10, as stated, fails.  With negotiated SPS `67 64 00 1f` and PPS `68 ee`, from the
empty reassembly buffer, three unmarked candidates and then a marked one:
four candidates of the unknown NAL type 12 are all dropped and the downstream handler is
never called; four key-frame candidates (type 5) give one call whose payload is the
joined parameter sets followed by the four payloads, not the four payloads alone; when
the first candidate is an SPS with level byte `1f` the one payload emitted has `29` in
its place; and when the marked fourth candidate is a PPS shorter than 128 bytes it is
buffered and nothing is emitted. -/
theorem RTPDepay_four_fragments_ne_concat :
    RTPDepay id [0x67, 0x64, 0, 0x1f] [0x68, 0xee]
      [(⟨2, false, 96, 1, 9000, 7, []⟩, ⟨[0, 0, 0, 1, 0x0c], false⟩),
       (⟨2, false, 96, 2, 9000, 7, []⟩, ⟨[0, 0, 0, 1, 0x0c], false⟩),
       (⟨2, false, 96, 3, 9000, 7, []⟩, ⟨[0, 0, 0, 1, 0x0c], false⟩),
       (⟨2, true, 96, 4, 9000, 7, []⟩, ⟨[0, 0, 0, 1, 0x0c], false⟩)]
      = .ok ([], [none, none, none, none]) ∧
    RTPDepay id [0x67, 0x64, 0, 0x1f] [0x68, 0xee]
      [(⟨2, false, 96, 1, 9000, 7, []⟩, ⟨[0, 0, 0, 2, 0x65, 0x88], false⟩),
       (⟨2, false, 96, 2, 9000, 7, []⟩, ⟨[0, 0, 0, 2, 0x65, 0x89], false⟩),
       (⟨2, false, 96, 3, 9000, 7, []⟩, ⟨[0, 0, 0, 2, 0x65, 0x8a], false⟩),
       (⟨2, true, 96, 4, 9000, 7, []⟩, ⟨[0, 0, 0, 2, 0x65, 0x8b], false⟩)]
      = .ok ([], [none, none, none, some ⟨0, true, 96, 4, 9000, 7,
          [0, 0, 0, 4, 0x67, 0x64, 0, 0x29, 0, 0, 0, 2, 0x68, 0xee]
            ++ ([0, 0, 0, 2, 0x65, 0x88] ++ [0, 0, 0, 2, 0x65, 0x89]
              ++ [0, 0, 0, 2, 0x65, 0x8a] ++ [0, 0, 0, 2, 0x65, 0x8b])⟩]) ∧
    RTPDepay id [0x67, 0x64, 0, 0x1f] [0x68, 0xee]
      [(⟨2, false, 96, 1, 9000, 7, []⟩, ⟨[0, 0, 0, 4, 0x67, 0x42, 0, 0x1f], false⟩),
       (⟨2, false, 96, 2, 9000, 7, []⟩, ⟨[0, 0, 0, 2, 0x68, 0xce], false⟩),
       (⟨2, false, 96, 3, 9000, 7, []⟩, ⟨[0, 0, 0, 2, 0x65, 0x8a], false⟩),
       (⟨2, true, 96, 4, 9000, 7, []⟩, ⟨[0, 0, 0, 2, 0x41, 0x8b], false⟩)]
      = .ok ([], [none, none, none, some ⟨0, true, 96, 4, 9000, 7,
          [0, 0, 0, 4, 0x67, 0x42, 0, 0x29] ++ [0, 0, 0, 2, 0x68, 0xce]
            ++ [0, 0, 0, 2, 0x65, 0x8a] ++ [0, 0, 0, 2, 0x41, 0x8b]⟩]) ∧
    RTPDepay id [0x67, 0x64, 0, 0x1f] [0x68, 0xee]
      [(⟨2, false, 96, 1, 9000, 7, []⟩, ⟨[0, 0, 0, 2, 0x41, 0x88], false⟩),
       (⟨2, false, 96, 2, 9000, 7, []⟩, ⟨[0, 0, 0, 2, 0x41, 0x89], false⟩),
       (⟨2, false, 96, 3, 9000, 7, []⟩, ⟨[0, 0, 0, 2, 0x41, 0x8a], false⟩),
       (⟨2, true, 96, 4, 9000, 7, []⟩, ⟨[0, 0, 0, 2, 0x68, 0xce], false⟩)]
      = .ok ([0, 0, 0, 2, 0x41, 0x88] ++ [0, 0, 0, 2, 0x41, 0x89]
          ++ [0, 0, 0, 2, 0x41, 0x8a] ++ [0, 0, 0, 2, 0x68, 0xce],
          [none, none, none, none]) := by
  decide

/-- C10, amended: starting from an empty reassembly buffer, take four candidate payloads
`p1 .. p4` where `p1` has a leading NAL of type 1, 7 or 8 (predicted frame, SPS, PPS:
what the start-of-access-unit repair passes as it is) that is not an SPS declaring 128
bytes or more (so the Annex-B fixer is not called), `p2`, `p3`, `p4` are non-empty,
`p1`, `p2`, `p3` together are at most 5 MiB, and `p4` is at least 128 bytes long or has
a leading NAL type other than SPS, PPS and SEI.  Feeding `p1`, `p2`, `p3` with the marker
bit clear and then `p4` with the marker bit set calls the downstream handler exactly
once, after the fourth packet, with the fourth packet's header, the AVC version tag, and
the payload `p1 ++ p2 ++ p3 ++ p4` after the level patch: walking its records, byte 3 of
every SPS NAL (type 7) of length at least 4 is `0x29` and every other byte is unchanged.
When `p1 ++ p2 ++ p3 ++ p4` is the records of units `nalus`, the payload is the records
of the units with the level patch applied to each; when moreover no unit is an SPS of
length at least 4, the payload is `p1 ++ p2 ++ p3 ++ p4` itself.  The reassembly buffer
is empty afterwards. -/
theorem RTPDepay_four_fragments (fix : List Nat → List Nat) (sps pps : List Nat)
    (pk1 pk2 pk3 pk4 : Packet) (p1 p2 p3 p4 : List Nat) (t1 : Nat)
    (hm1 : pk1.Marker = false) (hm2 : pk2.Marker = false) (hm3 : pk3.Marker = false)
    (hm4 : pk4.Marker = true)
    (ht1 : NALUType p1 = .ok t1)
    (hacc : t1 = NALUTypePFrame ∨ t1 = NALUTypeSPS ∨ t1 = NALUTypePPS)
    (hfix : t1 = NALUTypeSPS → ∃ n, Uint32 p1 = .ok n ∧ n < PSMaxSize)
    (hp2 : p2 ≠ []) (hp3 : p3 ≠ []) (hp4 : p4 ≠ [])
    (hsz : p1.length + p2.length + p3.length ≤ 5 * 1024 * 1024)
    (h4 : PSMaxSize ≤ p4.length ∨
      ∃ t4, NALUType p4 = .ok t4 ∧ t4 ≠ NALUTypeSPS ∧ t4 ≠ NALUTypePPS ∧ t4 ≠ NALUTypeSEI) :
    RTPDepay fix sps pps
        [(pk1, ⟨p1, false⟩), (pk2, ⟨p2, false⟩), (pk3, ⟨p3, false⟩), (pk4, ⟨p4, false⟩)]
      = .ok ([], [none, none, none,
          some { pk4 with Version := RTPPacketVersionAVC,
                          Payload := levelPatch (p1 ++ p2 ++ p3 ++ p4) }]) ∧
    (∀ nalus : List (List Nat), p1 ++ p2 ++ p3 ++ p4 = records nalus →
      (∀ n ∈ nalus, n.length < 2 ^ 32) →
      levelPatch (p1 ++ p2 ++ p3 ++ p4) = records (nalus.map patchNAL) ∧
      ((∀ n ∈ nalus, ¬ (4 ≤ n.length ∧ n.headD 0 &&& 0x1F = 7)) →
        levelPatch (p1 ++ p2 ++ p3 ++ p4) = p1 ++ p2 ++ p3 ++ p4)) := by
  have h5 := NALUType_ok_length p1 t1 ht1
  have ht3 : NALUType (p1 ++ p2 ++ p3) = .ok t1 :=
    NALUType_append _ p3 t1 (NALUType_append p1 p2 t1 ht1)
  have hu3 : Uint32 (p1 ++ p2 ++ p3) = Uint32 p1 := by
    rw [Uint32_append (p1 ++ p2) p3 (by rw [List.length_append]; omega),
      Uint32_append p1 p2 (by omega)]
  have hq := RTPDepay.handler_emit_levelPatch fix
    (joinBytes [if sps.length ≥ 4 then sps.set 3 0x29 else sps, pps]) (p1 ++ p2 ++ p3) pk4 p4 t1
    hm4 (by simp only [List.length_append]; omega) hp4 ht3 (by rw [hu3]; exact hfix) h4
  constructor
  · rw [RTPDepay, JoinNALU_ok]
    simp only [bind, Except.bind, RTPDepay.run]
    rw [RTPDepay.handler_first fix _ pk1 p1 t1 hm1 ht1 hacc]
    simp only []
    rw [RTPDepay.handler_append fix _ p1 pk2 p2 hm2 (by omega) (by omega) hp2]
    simp only []
    rw [RTPDepay.handler_append fix _ (p1 ++ p2) pk3 p3 hm3
      (by rw [List.length_append]; omega) (by rw [List.length_append]; omega) hp3]
    simp only []
    rw [hq]
    rfl
  · intro nalus hrec hlt
    rw [hrec]
    refine ⟨levelPatch_records nalus hlt, ?_⟩
    intro hno
    rw [levelPatch_records nalus hlt]
    congr 1
    have e : ∀ n ∈ nalus, patchNAL n = n := fun n hn => if_neg (hno n hn)
    rw [List.map_congr_left e, List.map_id']

theorem RTPDepay_four_fragments_witness :
    NALUType [0, 0, 0, 4, 0x67, 0x42, 0, 0x1f] = .ok NALUTypeSPS ∧
    NALUType [0, 0, 0, 2, 0x41, 0x8b] = .ok NALUTypePFrame ∧
    levelPatch ([0, 0, 0, 4, 0x67, 0x42, 0, 0x1f] ++ [0, 0, 0, 2, 0x68, 0xce]
        ++ [0, 0, 0, 2, 0x41, 0x8a] ++ [0, 0, 0, 2, 0x41, 0x8b])
      = [0, 0, 0, 4, 0x67, 0x42, 0, 0x29, 0, 0, 0, 2, 0x68, 0xce, 0, 0, 0, 2, 0x41, 0x8a,
          0, 0, 0, 2, 0x41, 0x8b] ∧
    RTPDepay id [0x67, 0x64, 0, 0x1f] [0x68, 0xee]
        [(⟨2, false, 96, 1, 9000, 7, []⟩, ⟨[0, 0, 0, 4, 0x67, 0x42, 0, 0x1f], false⟩),
         (⟨2, false, 96, 2, 9000, 7, []⟩, ⟨[0, 0, 0, 2, 0x68, 0xce], false⟩),
         (⟨2, false, 96, 3, 9000, 7, []⟩, ⟨[0, 0, 0, 2, 0x41, 0x8a], false⟩),
         (⟨2, true, 96, 4, 9000, 7, []⟩, ⟨[0, 0, 0, 2, 0x41, 0x8b], false⟩)]
      = .ok ([], [none, none, none, some ⟨0, true, 96, 4, 9000, 7,
          levelPatch ([0, 0, 0, 4, 0x67, 0x42, 0, 0x1f] ++ [0, 0, 0, 2, 0x68, 0xce]
            ++ [0, 0, 0, 2, 0x41, 0x8a] ++ [0, 0, 0, 2, 0x41, 0x8b])⟩]) :=
  ⟨by decide, by decide, by decide,
   (RTPDepay_four_fragments id [0x67, 0x64, 0, 0x1f] [0x68, 0xee]
     ⟨2, false, 96, 1, 9000, 7, []⟩ ⟨2, false, 96, 2, 9000, 7, []⟩
     ⟨2, false, 96, 3, 9000, 7, []⟩ ⟨2, true, 96, 4, 9000, 7, []⟩
     [0, 0, 0, 4, 0x67, 0x42, 0, 0x1f] [0, 0, 0, 2, 0x68, 0xce] [0, 0, 0, 2, 0x41, 0x8a]
     [0, 0, 0, 2, 0x41, 0x8b] 7 (by decide) (by decide) (by decide) (by decide) (by decide)
     (by decide) (fun _ => ⟨4, by decide, by decide⟩) (by decide) (by decide) (by decide)
     (by decide)
     (Or.inr ⟨1, by decide, by decide, by decide, by decide⟩)).1⟩

/-- C12: for every reassembly buffer longer than 5*1024*1024 bytes and every packet
with a non-empty candidate payload (the depacketizer reported no error), the `RTPDepay`
step gives the same result, emission and next buffer, as the step from the empty
buffer, so nothing of the discarded bytes is emitted later.  For a non-empty buffer of
at most 5 MiB the guard does not fire: an unmarked packet leaves the buffer followed
by the candidate. -/
theorem RTPDepay_memory_guard (fix : List Nat → List Nat) (ps : List Nat) (packet : Packet)
    (u : Unmarshalled) :
    (∀ buf : List Nat, 5 * 1024 * 1024 < buf.length → u.payload ≠ [] → u.err = false →
      RTPDepay.handler fix ps buf packet u = RTPDepay.handler fix ps [] packet u) ∧
    (∀ buf : List Nat, 0 < buf.length → buf.length ≤ 5 * 1024 * 1024 → u.payload ≠ [] →
      u.err = false → packet.Marker = false →
      RTPDepay.handler fix ps buf packet u = .ok (buf ++ u.payload, none)) := by
  constructor
  · intro buf hb hp he
    have h1 : buf.length > 5 * 1024 * 1024 := hb
    simp [RTPDepay.handler, hp, he, h1]
  · intro buf h0 hb hp he hm
    have e : u = ⟨u.payload, false⟩ := by
      cases u
      simp at he
      simp [he]
    rw [e]
    exact RTPDepay.handler_append fix ps buf packet u.payload hm h0 hb hp

theorem RTPDepay_memory_guard_witness :
    5 * 1024 * 1024 < (List.replicate 5242881 (0 : Nat)).length ∧
    RTPDepay.handler id [] (List.replicate 5242881 0) ⟨2, true, 96, 4, 9000, 7, []⟩
        ⟨[0, 0, 0, 2, 0x41, 0x8b], false⟩
      = RTPDepay.handler id [] [] ⟨2, true, 96, 4, 9000, 7, []⟩
        ⟨[0, 0, 0, 2, 0x41, 0x8b], false⟩ ∧
    RTPDepay.handler id [] [0, 0, 0, 2, 0x41, 0x8a] ⟨2, false, 96, 4, 9000, 7, []⟩
        ⟨[0, 0, 0, 2, 0x41, 0x8b], false⟩
      = .ok ([0, 0, 0, 2, 0x41, 0x8a] ++ [0, 0, 0, 2, 0x41, 0x8b], none) :=
  ⟨by rw [List.length_replicate]; decide,
   (RTPDepay_memory_guard id [] ⟨2, true, 96, 4, 9000, 7, []⟩
      ⟨[0, 0, 0, 2, 0x41, 0x8b], false⟩).1 (List.replicate 5242881 0)
      (by rw [List.length_replicate]; decide) (by decide) rfl,
   (RTPDepay_memory_guard id [] ⟨2, false, 96, 4, 9000, 7, []⟩
      ⟨[0, 0, 0, 2, 0x41, 0x8b], false⟩).2 [0, 0, 0, 2, 0x41, 0x8a] (by decide) (by decide)
      (by decide) rfl rfl⟩

/-- C16: for every byte sequence `nal`, `patchSPS(patchSPS(nal)) = patchSPS(nal)`; when
`len(nal) >= 4` the result has byte 3 equal to `0x29`, the length of `nal`, and every
other byte unchanged; when `len(nal) < 4` the result is `nal`. -/
theorem patchSPS_idempotent (nal : List Nat) :
    patchSPS (patchSPS nal) = patchSPS nal ∧
    (4 ≤ nal.length →
      (patchSPS nal)[3]? = some 0x29 ∧ (patchSPS nal).length = nal.length ∧
      ∀ i : Nat, i ≠ 3 → (patchSPS nal)[i]? = nal[i]?) ∧
    (nal.length < 4 → patchSPS nal = nal) := by
  refine ⟨?_, ?_, ?_⟩
  · by_cases h : nal.length ≥ 4
    · have h2 : (nal.set 3 0x29).length ≥ 4 := by rw [List.length_set]; exact h
      have e : patchSPS nal = nal.set 3 0x29 := by rw [patchSPS, if_pos h]
      rw [e, patchSPS, if_pos h2, List.set_set]
    · have e : patchSPS nal = nal := by rw [patchSPS, if_neg h]
      rw [e, e]
  · intro h
    have h2 : nal.length ≥ 4 := h
    rw [patchSPS, if_pos h2]
    refine ⟨?_, List.length_set _ _ _, ?_⟩
    · rw [List.getElem?_set, if_pos rfl, if_pos (by omega)]
    · intro i hi
      rw [List.getElem?_set, if_neg (fun e => hi e.symm)]
  · intro h
    have h2 : ¬ nal.length ≥ 4 := by omega
    rw [patchSPS, if_neg h2]

theorem patchSPS_idempotent_witness :
    patchSPS [0x67, 0x64, 0x00, 0x1f, 0xac] = [0x67, 0x64, 0x00, 0x29, 0xac] ∧
    (patchSPS [0x67, 0x64, 0x00, 0x1f, 0xac])[3]? = some 0x29 ∧
    patchSPS [0x67, 0x64] = [0x67, 0x64] :=
  ⟨by decide,
   ((patchSPS_idempotent [0x67, 0x64, 0x00, 0x1f, 0xac]).2.1 (by decide)).1,
   (patchSPS_idempotent [0x67, 0x64]).2.2 (by decide)⟩

/-- C14, as stated, fails: when the payloader returns no chunk for an AVC-framed packet
(here a payloader that always does), the `RTPPay` handler forwards no packet at all, so
it is not the case that exactly one forwarded packet has the marker bit set. -/
theorem RTPPay_no_chunk_no_marker :
    (RTPPay (fun _ _ => []) 1472 7 ⟨0, true, 96, 4, 9000, 7, []⟩).1 = [] ∧
    ((RTPPay (fun _ _ => []) 1472 7 ⟨0, true, 96, 4, 9000, 7, []⟩).1.filter
      (fun p => p.Marker)).length ≠ 1 := by
  decide

/-- C14, amended: for every AVC-framed input packet (`Version == 0`), every MTU and
every payloader, the payloads of the packets the `RTPPay` handler forwards are exactly
the payloader's chunks in order; every forwarded packet has RTP version 2 and the input
packet's timestamp; when the payloader returns at least one chunk exactly one forwarded
packet has the marker bit set and it is the last one; when it returns none, nothing is
forwarded. -/
theorem RTPPay_marker_timestamp (payloader : Nat → List Nat → List (List Nat))
    (mtu seq : Nat) (packet : Packet) (hv : packet.Version = RTPPacketVersionAVC) :
    (RTPPay payloader mtu seq packet).1.map (fun p => p.Payload)
      = payloader (RTPPay.mtu mtu) packet.Payload ∧
    (∀ p ∈ (RTPPay payloader mtu seq packet).1,
      p.Version = 2 ∧ p.Timestamp = packet.Timestamp) ∧
    (payloader (RTPPay.mtu mtu) packet.Payload ≠ [] →
      (RTPPay payloader mtu seq packet).1.map (fun p => p.Marker)
        = List.replicate ((payloader (RTPPay.mtu mtu) packet.Payload).length - 1) false
            ++ [true]) ∧
    (payloader (RTPPay.mtu mtu) packet.Payload = [] →
      (RTPPay payloader mtu seq packet).1 = []) := by
  have hnv : ¬ (packet.Version ≠ RTPPacketVersionAVC) := by simp [hv]
  simp only [RTPPay, RTPPay.handler, if_neg hnv]
  refine ⟨RTPPay.emit_payloads _ _ _ _ _, RTPPay.emit_header _ _ _ _ _, ?_, ?_⟩
  · intro hne
    apply RTPPay.emit_marker _ _ _ _ _ hne
    omega
  · intro he
    rw [he]
    rfl

theorem RTPPay_marker_timestamp_witness :
    (RTPPay (fun limit payload => [payload.take limit, payload.drop limit]) 16 7
        ⟨0, true, 96, 4, 9000, 7, [0, 0, 0, 2, 0x41, 0x8b]⟩).1.map (fun p => p.Marker)
      = [false, true] :=
  (RTPPay_marker_timestamp (fun limit payload => [payload.take limit, payload.drop limit])
    16 7 ⟨0, true, 96, 4, 9000, 7, [0, 0, 0, 2, 0x41, 0x8b]⟩ rfl).2.2.1 (by decide)

/-- C15: what the code does for the 16-bit MTU 5.  `mtu -= 12` wraps to 65529, which is
the limit the payloader gets; a payloader that never returns a chunk longer than its
limit returns the 6-byte payload as one chunk, and the handler forwards it, although
`5 - 12` is negative. -/
theorem RTPPay_mtu_wraps :
    RTPPay.mtu 5 = 65529 ∧
    (∀ (limit : Nat) (payload c : List Nat), c ∈ [payload.take limit] → c.length ≤ limit) ∧
    (RTPPay (fun limit payload => [payload.take limit]) 5 7
        ⟨0, true, 96, 4, 9000, 7, [0, 0, 0, 2, 0x41, 0x8b]⟩).1.map (fun p => p.Payload)
      = [[0, 0, 0, 2, 0x41, 0x8b]] ∧
    ¬ ((([0, 0, 0, 2, 0x41, 0x8b] : List Nat).length : Int) ≤ (5 : Int) - 12) := by
  refine ⟨by decide, ?_, by decide, by decide⟩
  intro limit payload c hc
  rw [List.mem_singleton] at hc
  rw [hc, List.length_take]
  exact Nat.min_le_left _ _

/-- C13: what the code does on five candidates.  From the empty buffer, an unmarked
1-byte candidate makes the read of the NAL type panic (index out of range); a leading
SEI record that declares 9 bytes where 1 is present makes `payload[i:]` panic (slice
bounds out of range); a leading SEI record followed by 2 bytes makes the next read of
the NAL type panic; a leading SEI record that declares `0xFFFFFFFC` bytes makes
`4 + length` wrap to 0 in `uint32`, so the loop goes round on the same payload and never
ends, whatever the fuel.  With a non-empty buffer, a marked 1-byte candidate panics in
the read of the NAL type.  None of the five packets is dropped silently. -/
theorem RTPDepay_malformed_panics :
    RTPDepay.handler id [] [] ⟨2, false, 96, 4, 9000, 7, []⟩ ⟨[0x41], false⟩
      = .error Fault.indexOutOfRange ∧
    RTPDepay.handler id [] [] ⟨2, false, 96, 4, 9000, 7, []⟩ ⟨[0, 0, 0, 9, 0x06], false⟩
      = .error Fault.sliceBoundsOutOfRange ∧
    RTPDepay.handler id [] [] ⟨2, false, 96, 4, 9000, 7, []⟩
        ⟨[0, 0, 0, 1, 0x06, 0xAA, 0x01], false⟩
      = .error Fault.indexOutOfRange ∧
    (∀ fuel, RTPDepay.start [] fuel [] [0xFF, 0xFF, 0xFF, 0xFC, 0x06] = .error Fault.fuel) ∧
    RTPDepay.handler id [] [0, 0, 0, 2, 0x41, 0x9a] ⟨2, true, 96, 4, 9000, 7, []⟩
        ⟨[0x41], false⟩
      = .error Fault.indexOutOfRange :=
  ⟨by decide, by decide, by decide, RTPDepay.start_wraps [], by decide⟩

/-- C17: what the code does on five buffers.  A buffer shorter than 4 bytes, and a
record that declares more bytes than remain, end the walk with
`packetization-mode=1`.  An SPS record whose NAL is 1 byte, or 3 bytes, at the end of
the buffer makes `avcc[5:8]` panic (slice bounds out of range); a zero-length record at
the end of the buffer makes the read of the NAL type panic (index out of range). -/
theorem AVCCToCodec_short_sps_panics :
    AVCCToCodec [0, 0, 1]
      = .ok ⟨"H264", 90000, "packetization-mode=1", PayloadType.RAW⟩ ∧
    AVCCToCodec [0, 0, 0, 9, 0x67, 0x64]
      = .ok ⟨"H264", 90000, "packetization-mode=1", PayloadType.RAW⟩ ∧
    AVCCToCodec [0, 0, 0, 1, 0x67] = .error Fault.sliceBoundsOutOfRange ∧
    AVCCToCodec [0, 0, 0, 3, 0x67, 0x64, 0x00] = .error Fault.sliceBoundsOutOfRange ∧
    AVCCToCodec [0, 0, 0, 0] = .error Fault.indexOutOfRange := by
  decide

/-- C20: what the code does on the 6-byte buffer `00 00 00 01 65 ff`.  The first record
`00 00 00 01 65` is split off, one byte remains, and the next read of the length field
panics (index out of range): nothing is returned. -/
theorem SplitNALU_trailing_bytes_panics :
    4 ≤ ([0, 0, 0, 1, 0x65, 0xff] : List Nat).length ∧
    SplitNALU [0, 0, 0, 1, 0x65, 0xff] = .error Fault.indexOutOfRange := by
  decide

/-- C19: for every assembled access unit (the reassembly buffer followed by the
candidate, or the candidate alone when the buffer is empty) that is a well-formed AVCC
buffer, the records of units `nalus` each shorter than 2^32 bytes, of at least 5 bytes,
and that is not handed to the Annex-B fixer, the marked packet makes `RTPDepay` emit the
records of the patched units: the emitted buffer has the length of the assembled unit,
every SPS NAL (type 7) of length at least 4 has byte 3 set to `0x29`, and every other
byte of every unit, and every length field, is unchanged. -/
theorem RTPDepay_level_patch (fix : List Nat → List Nat) (buf payload : List Nat)
    (packet : Packet) (nalus : List (List Nat)) (t : Nat)
    (hm : packet.Marker = true)
    (hasm : (if buf.length > 0 then buf ++ payload else payload) = records nalus)
    (hlt : ∀ n ∈ nalus, n.length < 2 ^ 32)
    (ht : NALUType (records nalus) = .ok t)
    (hfix : t = NALUTypeSPS → ∃ n, Uint32 (records nalus) = .ok n ∧ n < PSMaxSize) :
    RTPDepay.finish fix buf payload packet
      = .ok ([], some { packet with Version := RTPPacketVersionAVC,
                                    Payload := records (nalus.map patchNAL) }) ∧
    (records (nalus.map patchNAL)).length = (records nalus).length ∧
    ∀ n ∈ nalus, (patchNAL n).length = n.length ∧
      (4 ≤ n.length ∧ n.headD 0 &&& 0x1F = 7 → patchNAL n = n.set 3 0x29) ∧
      (¬ (4 ≤ n.length ∧ n.headD 0 &&& 0x1F = 7) → patchNAL n = n) := by
  refine ⟨?_, records_map_patchNAL_length nalus, ?_⟩
  · apply RTPDepay.finish_of_patch fix buf payload packet t _ hm
    · rw [hasm]
      exact ht
    · rw [hasm]
      exact hfix
    · rw [hasm]
      exact RTPDepay.patch_records_zero nalus hlt
  · intro n _
    refine ⟨patchNAL_length n, ?_, ?_⟩
    · intro h
      exact if_pos h
    · intro h
      exact if_neg h

theorem RTPDepay_level_patch_witness :
    RTPDepay.finish id [0, 0, 0, 4, 0x67, 0x42, 0, 0x1f] [0, 0, 0, 2, 0x65, 0x88]
        ⟨2, true, 96, 4, 9000, 7, []⟩
      = .ok ([], some ⟨0, true, 96, 4, 9000, 7,
          records [[0x67, 0x42, 0, 0x29], [0x65, 0x88]]⟩) :=
  (RTPDepay_level_patch id [0, 0, 0, 4, 0x67, 0x42, 0, 0x1f] [0, 0, 0, 2, 0x65, 0x88]
    ⟨2, true, 96, 4, 9000, 7, []⟩ [[0x67, 0x42, 0, 0x1f], [0x65, 0x88]] 7 rfl (by decide)
    (by decide) (by decide) (fun _ => ⟨4, by decide, by decide⟩)).1

/-- C11: starting from an empty reassembly buffer, take a marked candidate that is the
record of an SPS `s` (type 7), shorter than 128 bytes, then a marked candidate that is
the record of a PPS `p` (type 8), shorter than 128 bytes, then a key-frame candidate:
the records of non-empty units `k :: ks`, each shorter than 2^32 bytes, `k` of type 5.
Nothing is emitted for the SPS and PPS packets.  When the key-frame packet is unmarked
nothing is emitted for it either and the buffer holds the three candidates.  When it is
marked exactly one buffer is emitted: the records of `s`, `p`, `k`, `ks` after the level
patch, whose NAL type sequence is 7, 8, 5 and then the types of `ks`; the negotiated
parameter sets `sps`, `pps` are not inserted. -/
theorem RTPDepay_marked_parameter_sets (fix : List Nat → List Nat) (sps pps : List Nat)
    (pk1 pk2 pk3 : Packet) (s0 : Nat) (stail : List Nat) (p0 : Nat) (ptail : List Nat)
    (k0 : Nat) (ktail : List Nat) (ks : List (List Nat))
    (hm1 : pk1.Marker = true) (hm2 : pk2.Marker = true)
    (hs : s0 &&& 0x1F = 7) (hp : p0 &&& 0x1F = 8) (hk : k0 &&& 0x1F = 5)
    (hsl : (record (s0 :: stail)).length < PSMaxSize)
    (hpl : (record (p0 :: ptail)).length < PSMaxSize)
    (hks : ∀ n ∈ (k0 :: ktail) :: ks, n ≠ [] ∧ n.length < 2 ^ 32) :
    (pk3.Marker = false →
      RTPDepay fix sps pps
          [(pk1, ⟨record (s0 :: stail), false⟩), (pk2, ⟨record (p0 :: ptail), false⟩),
           (pk3, ⟨records ((k0 :: ktail) :: ks), false⟩)]
        = .ok (record (s0 :: stail) ++ record (p0 :: ptail) ++ records ((k0 :: ktail) :: ks),
            [none, none, none])) ∧
    (pk3.Marker = true →
      RTPDepay fix sps pps
          [(pk1, ⟨record (s0 :: stail), false⟩), (pk2, ⟨record (p0 :: ptail), false⟩),
           (pk3, ⟨records ((k0 :: ktail) :: ks), false⟩)]
        = .ok ([], [none, none,
            some { pk3 with
                   Version := RTPPacketVersionAVC
                   Payload := records (((s0 :: stail) :: (p0 :: ptail) :: (k0 :: ktail) :: ks).map
                     patchNAL) }]) ∧
      NALUTypes (records (((s0 :: stail) :: (p0 :: ptail) :: (k0 :: ktail) :: ks).map patchNAL))
        = .ok (7 :: 8 :: 5 :: ks.map (fun n => n.headD 0 &&& 0x1F))) := by
  have hsl2 := hsl
  have hpl2 := hpl
  rw [record_length] at hsl2 hpl2
  simp only [PSMaxSize] at hsl2 hpl2
  have hts : NALUType (record (s0 :: stail)) = .ok NALUTypeSPS := by
    have e := NALUType_record s0 stail []
    rw [List.append_nil, hs] at e
    exact e
  have htp : NALUType (record (p0 :: ptail)) = .ok NALUTypePPS := by
    have e := NALUType_record p0 ptail []
    rw [List.append_nil, hp] at e
    exact e
  have htk : NALUType (records ((k0 :: ktail) :: ks)) = .ok NALUTypeIFrame := by
    rw [records_cons, NALUType_record, hk]
    rfl
  have hkne : records ((k0 :: ktail) :: ks) ≠ [] := by
    intro e
    have := NALUType_ok_length _ _ htk
    rw [e] at this
    simp at this
  have hb2 : (record (s0 :: stail) ++ record (p0 :: ptail)).length ≤ 5 * 1024 * 1024 := by
    rw [List.length_append, record_length, record_length]
    omega
  have hb2pos : 0 < (record (s0 :: stail) ++ record (p0 :: ptail)).length := by
    rw [List.length_append, record_length, record_length]
    omega
  have step1 : ∀ ps, RTPDepay.handler fix ps [] pk1 ⟨record (s0 :: stail), false⟩
      = .ok (record (s0 :: stail), none) := fun ps =>
    RTPDepay.handler_marked_ps fix ps [] pk1 _ _ hm1 (by simp) hsl hts (Or.inl rfl)
  have step2 : ∀ ps, RTPDepay.handler fix ps (record (s0 :: stail)) pk2
        ⟨record (p0 :: ptail), false⟩
      = .ok (record (s0 :: stail) ++ record (p0 :: ptail), none) := fun ps =>
    RTPDepay.handler_marked_ps fix ps _ pk2 _ _ hm2 (by rw [record_length]; omega) hpl htp
      (Or.inr rfl)
  constructor
  · intro hm3
    rw [RTPDepay, JoinNALU_ok]
    simp only [bind, Except.bind, RTPDepay.run]
    rw [step1]
    simp only []
    rw [step2]
    simp only []
    rw [RTPDepay.handler_append fix _ _ pk3 _ hm3 hb2pos hb2 hkne]
    rfl
  · intro hm3
    have hall : ∀ n ∈ (s0 :: stail) :: (p0 :: ptail) :: (k0 :: ktail) :: ks,
        n ≠ [] ∧ n.length < 2 ^ 32 := by
      intro n hn
      rcases List.mem_cons.mp hn with e | hn
      · rw [e]
        exact ⟨by simp, by omega⟩
      · rcases List.mem_cons.mp hn with e | hn
        · rw [e]
          exact ⟨by simp, by omega⟩
        · exact hks n hn
    have hasm : (if (record (s0 :: stail) ++ record (p0 :: ptail)).length > 0
          then record (s0 :: stail) ++ record (p0 :: ptail) ++ records ((k0 :: ktail) :: ks)
          else records ((k0 :: ktail) :: ks))
        = records ((s0 :: stail) :: (p0 :: ptail) :: (k0 :: ktail) :: ks) := by
      rw [if_pos hb2pos]
      simp only [records_cons, List.append_assoc]
    have hta : NALUType (records ((s0 :: stail) :: (p0 :: ptail) :: (k0 :: ktail) :: ks))
        = .ok NALUTypeSPS := by
      rw [records_cons, NALUType_record, hs]
      rfl
    have hua : Uint32 (records ((s0 :: stail) :: (p0 :: ptail) :: (k0 :: ktail) :: ks))
        = .ok (s0 :: stail).length := by
      rw [records_cons, Uint32_record _ _ (by omega)]
    have hfin : RTPDepay.finish fix (record (s0 :: stail) ++ record (p0 :: ptail))
          (records ((k0 :: ktail) :: ks)) pk3
        = .ok ([], some { pk3 with
            Version := RTPPacketVersionAVC
            Payload := records (((s0 :: stail) :: (p0 :: ptail) :: (k0 :: ktail) :: ks).map
              patchNAL) }) := by
      apply RTPDepay.finish_of_patch fix _ _ pk3 NALUTypeSPS _ hm3
      · rw [hasm]
        exact hta
      · intro _
        rw [hasm]
        exact ⟨_, hua, by simp only [PSMaxSize]; omega⟩
      · rw [hasm]
        exact RTPDepay.patch_records_zero _ (fun n hn => (hall n hn).2)
    constructor
    · rw [RTPDepay, JoinNALU_ok]
      simp only [bind, Except.bind, RTPDepay.run]
      rw [step1]
      simp only []
      rw [step2]
      simp only []
      rw [RTPDepay.handler_marked_nonempty fix _ _ pk3 _ hm3 hb2pos hb2 hkne
        (Or.inr ⟨NALUTypeIFrame, htk, by decide, by decide, by decide⟩), hfin]
      rfl
    · rw [NALUTypes_records_patchNAL _ (by simp) hall]
      simp only [List.map_cons, List.headD_cons, hs, hp, hk]

theorem RTPDepay_marked_parameter_sets_witness :
    RTPDepay id [0x67, 0x64, 0, 0x1f] [0x68, 0xee]
        [(⟨2, true, 96, 1, 9000, 7, []⟩, ⟨record [0x67, 0x42, 0, 0x1f], false⟩),
         (⟨2, true, 96, 2, 9000, 7, []⟩, ⟨record [0x68, 0xce], false⟩),
         (⟨2, true, 96, 3, 9000, 7, []⟩, ⟨records [[0x65, 0x88], [0x41, 0x9a]], false⟩)]
      = .ok ([], [none, none, some ⟨0, true, 96, 3, 9000, 7,
          records ([[0x67, 0x42, 0, 0x1f], [0x68, 0xce], [0x65, 0x88], [0x41, 0x9a]].map
            patchNAL)⟩]) ∧
    NALUTypes (records ([[0x67, 0x42, 0, 0x1f], [0x68, 0xce], [0x65, 0x88], [0x41, 0x9a]].map
        patchNAL))
      = .ok [7, 8, 5, 1] :=
  (RTPDepay_marked_parameter_sets id [0x67, 0x64, 0, 0x1f] [0x68, 0xee]
    ⟨2, true, 96, 1, 9000, 7, []⟩ ⟨2, true, 96, 2, 9000, 7, []⟩ ⟨2, true, 96, 3, 9000, 7, []⟩
    0x67 [0x42, 0, 0x1f] 0x68 [0xce] 0x65 [0x88] [[0x41, 0x9a]] rfl rfl (by decide) (by decide)
    (by decide) (by decide) (by decide) (by decide)).2 rfl

/-- C18, as stated, fails.  With negotiated SPS `67 64 00 1f` and PPS `68 ee`, from the
empty reassembly buffer: a marked candidate of 12 bytes that is an SEI record followed
by a key-frame record is dropped by the "marked SEI" rule and nothing is emitted; and
for a marked candidate that is a key-frame record followed by an SPS record with level
byte `1f`, the emitted buffer has `29` in its place, so it is not the joined parameter
sets followed by the candidate. -/
theorem RTPDepay_key_frame_ne_exact :
    NALUType [0, 0, 0, 2, 0x06, 0x05, 0, 0, 0, 2, 0x65, 0x88] = .ok 6 ∧
    NALUType [0, 0, 0, 2, 0x65, 0x88] = .ok 5 ∧
    RTPDepay id [0x67, 0x64, 0, 0x1f] [0x68, 0xee]
        [(⟨2, true, 96, 1, 9000, 7, []⟩,
          ⟨[0, 0, 0, 2, 0x06, 0x05, 0, 0, 0, 2, 0x65, 0x88], false⟩)]
      = .ok ([], [none]) ∧
    JoinNALU [[0x67, 0x64, 0, 0x29], [0x68, 0xee]]
      = .ok [0, 0, 0, 4, 0x67, 0x64, 0, 0x29, 0, 0, 0, 2, 0x68, 0xee] ∧
    RTPDepay id [0x67, 0x64, 0, 0x1f] [0x68, 0xee]
        [(⟨2, true, 96, 1, 9000, 7, []⟩,
          ⟨[0, 0, 0, 2, 0x65, 0x88, 0, 0, 0, 4, 0x67, 0x42, 0, 0x1f], false⟩)]
      = .ok ([], [some ⟨0, true, 96, 1, 9000, 7,
          [0, 0, 0, 4, 0x67, 0x64, 0, 0x29, 0, 0, 0, 2, 0x68, 0xee]
            ++ [0, 0, 0, 2, 0x65, 0x88, 0, 0, 0, 4, 0x67, 0x42, 0, 0x29]⟩]) := by
  decide

/-- C18, amended: with an empty reassembly buffer, take a marked candidate that is the
records of SEI/AUD units `skip` (possibly none) followed by a buffer `idr` whose leading
NAL has type 5, the candidate being at least 128 bytes long or not led by an SEI, and
negotiated parameter sets shorter than 128 bytes each.  The `RTPDepay` handler emits
exactly one buffer: `JoinNALU(sps', pps) ++ idr` after the level patch (walking its
records, byte 3 of every SPS NAL of length at least 4 is `0x29` and every other byte is
unchanged), where `sps'` is `sps` with byte 3 set to `0x29` when `len(sps) >= 4`.  When
the reassembly buffer is non-empty (at most 5 MiB, not led by an SPS declaring 128 bytes
or more), a marked candidate with a leading NAL of type 5 makes the handler emit the
buffer followed by the candidate, after the level patch: the negotiated parameter sets
are not inserted.  On a buffer that is the records of units the level patch gives the
records of the units, each with the level patch applied. -/
theorem RTPDepay_key_frame (fix : List Nat → List Nat) (sps pps : List Nat) (packet : Packet)
    (skip : List (List Nat)) (idr : List Nat)
    (hm : packet.Marker = true)
    (hskip : ∀ n ∈ skip, (n.headD 0 &&& 0x1F = NALUTypeSEI ∨ n.headD 0 &&& 0x1F = NALUTypeAUD)
      ∧ n ≠ [] ∧ 4 + n.length < 2 ^ 32)
    (hidr : NALUType idr = .ok NALUTypeIFrame)
    (h4 : PSMaxSize ≤ (records skip ++ idr).length ∨
      NALUType (records skip ++ idr) ≠ .ok NALUTypeSEI)
    (hsl : sps.length < PSMaxSize) (hpl : pps.length < PSMaxSize) :
    (∃ ps, JoinNALU [if sps.length ≥ 4 then sps.set 3 0x29 else sps, pps] = .ok ps ∧
      RTPDepay fix sps pps [(packet, ⟨records skip ++ idr, false⟩)]
        = .ok ([], [some { packet with Version := RTPPacketVersionAVC,
                                       Payload := levelPatch (ps ++ idr) }])) ∧
    (∀ (ps buf : List Nat) (t : Nat), NALUType buf = .ok t →
      (t = NALUTypeSPS → ∃ n, Uint32 buf = .ok n ∧ n < PSMaxSize) →
      buf.length ≤ 5 * 1024 * 1024 →
      RTPDepay.handler fix ps buf packet ⟨idr, false⟩
        = .ok ([], some { packet with Version := RTPPacketVersionAVC,
                                      Payload := levelPatch (buf ++ idr) })) ∧
    (∀ nalus : List (List Nat), (∀ n ∈ nalus, n.length < 2 ^ 32) →
      levelPatch (records nalus) = records (nalus.map patchNAL)) := by
  have h5 := NALUType_ok_length idr _ hidr
  have hidrne : idr ≠ [] := by
    intro e
    rw [e] at h5
    simp at h5
  refine ⟨?_, ?_, levelPatch_records⟩
  · generalize hsps : (if sps.length ≥ 4 then sps.set 3 0x29 else sps) = sps1
    have hsl1 : sps1.length < PSMaxSize := by
      rw [← hsps]
      split
      · rw [List.length_set]
        exact hsl
      · exact hsl
    -- the candidate reaches the part of the handler that emits, with `buf = ps`
    have hcl : 5 ≤ (records skip ++ idr).length := by
      rw [List.length_append]
      omega
    obtain ⟨tc, htc⟩ := NALUType_total (records skip ++ idr) hcl
    have htc2 : tc = NALUTypeIFrame ∨ tc = NALUTypeSEI ∨ tc = NALUTypeAUD := by
      cases skip with
      | nil =>
        have e : records [] ++ idr = idr := rfl
        rw [e, hidr] at htc
        exact Or.inl (Except.ok.inj htc).symm
      | cons n rest =>
        obtain ⟨hty, hne, _⟩ := hskip n (List.mem_cons_self _ _)
        have ht : NALUType (records (n :: rest) ++ idr) = .ok (n.headD 0 &&& 0x1F) := by
          rw [records_cons, List.append_assoc]
          match n, hne with
          | x :: l, _ => exact NALUType_record x l _
        rw [ht] at htc
        rw [← Except.ok.inj htc]
        exact Or.inr hty
    have hstart := RTPDepay.start_skip (joinBytes [sps1, pps]) skip idr hskip hidr
      ((records skip ++ idr).length + 1) (by
        have := records_length_ge skip
        rw [List.length_append]
        omega)
    have hh : RTPDepay.handler fix (joinBytes [sps1, pps]) [] packet ⟨records skip ++ idr, false⟩
        = RTPDepay.finish fix (joinBytes [sps1, pps]) idr packet := by
      apply RTPDepay.handler_marked_start fix _ _ packet _ idr tc hm htc ?_ ?_ ?_ hstart
      · rcases htc2 with e | e | e <;> rw [e] <;> decide
      · rcases htc2 with e | e | e <;> rw [e] <;> decide
      · rcases h4 with h | h
        · exact Or.inl h
        · right
          intro e
          rw [e] at htc
          exact h htc
    -- what is assembled is `ps ++ idr`
    have hasm2 : (if (joinBytes [sps1, pps]).length > 0 then joinBytes [sps1, pps] ++ idr
        else idr) = joinBytes [sps1, pps] ++ idr := by
      by_cases h : (joinBytes [sps1, pps]).length > 0
      · rw [if_pos h]
      · have e : joinBytes [sps1, pps] = [] := List.length_eq_zero.mp (by omega)
        rw [if_neg h, e]
        rfl
    obtain ⟨t, ht⟩ := NALUType_total (joinBytes [sps1, pps] ++ idr) (by
      rw [List.length_append]
      omega)
    have hfin : RTPDepay.finish fix (joinBytes [sps1, pps]) idr packet
        = .ok ([], some { packet with Version := RTPPacketVersionAVC,
                                      Payload := levelPatch (joinBytes [sps1, pps] ++ idr) }) := by
      apply RTPDepay.finish_of_patch fix _ _ packet t _ hm
      · rw [hasm2]
        exact ht
      · intro hts
        rw [hasm2]
        by_cases hne : joinBytes [sps1, pps] = []
        · rw [hne] at ht
          have e : ([] : List Nat) ++ idr = idr := rfl
          rw [e, hidr] at ht
          rw [hts] at ht
          exact absurd (Except.ok.inj ht) (by decide)
        · exact Uint32_joinBytes_lt sps1 pps idr hsl1 hpl hne
      · rw [hasm2]
        exact RTPDepay.patch_eq_levelPatch _
    refine ⟨joinBytes [sps1, pps], JoinNALU_ok _, ?_⟩
    rw [RTPDepay, hsps, JoinNALU_ok]
    simp only [bind, Except.bind, RTPDepay.run]
    rw [hh, hfin]
    rfl
  · intro ps buf t ht hfix hsz
    exact RTPDepay.handler_emit_levelPatch fix ps buf packet idr t hm hsz hidrne ht hfix
      (Or.inr ⟨NALUTypeIFrame, hidr, by decide, by decide, by decide⟩)

theorem RTPDepay_key_frame_witness :
    NALUType [0, 0, 0, 2, 0x65, 0x88, 0, 0, 0, 4, 0x67, 0x42, 0, 0x1f] = .ok NALUTypeIFrame ∧
    levelPatch ([0, 0, 0, 4, 0x67, 0x64, 0, 0x29, 0, 0, 0, 2, 0x68, 0xee]
        ++ [0, 0, 0, 2, 0x65, 0x88, 0, 0, 0, 4, 0x67, 0x42, 0, 0x1f])
      = [0, 0, 0, 4, 0x67, 0x64, 0, 0x29, 0, 0, 0, 2, 0x68, 0xee,
          0, 0, 0, 2, 0x65, 0x88, 0, 0, 0, 4, 0x67, 0x42, 0, 0x29] ∧
    ∃ ps, JoinNALU [if ([0x67, 0x64, 0, 0x1f] : List Nat).length ≥ 4
          then ([0x67, 0x64, 0, 0x1f] : List Nat).set 3 0x29 else [0x67, 0x64, 0, 0x1f],
        [0x68, 0xee]] = .ok ps ∧
      RTPDepay id [0x67, 0x64, 0, 0x1f] [0x68, 0xee]
          [(⟨2, true, 96, 1, 9000, 7, []⟩,
            ⟨records [[0x09, 0xF0]]
              ++ [0, 0, 0, 2, 0x65, 0x88, 0, 0, 0, 4, 0x67, 0x42, 0, 0x1f], false⟩)]
        = .ok ([], [some ⟨0, true, 96, 1, 9000, 7,
            levelPatch (ps ++ [0, 0, 0, 2, 0x65, 0x88, 0, 0, 0, 4, 0x67, 0x42, 0, 0x1f])⟩]) :=
  ⟨by decide, by decide,
   (RTPDepay_key_frame id [0x67, 0x64, 0, 0x1f] [0x68, 0xee] ⟨2, true, 96, 1, 9000, 7, []⟩
     [[0x09, 0xF0]] [0, 0, 0, 2, 0x65, 0x88, 0, 0, 0, 4, 0x67, 0x42, 0, 0x1f] rfl (by decide)
     (by decide) (Or.inr (by decide)) (by decide) (by decide)).1⟩

end H264
